import Mathlib

/-!
The ngscuda linear algebra: host/device vectors and device matrices.

A shallow embedding of `src/ngscuda/cuda_linalg.cpp` (namespace `ngla`), of the symbol
table of `src/ngstd/symboltable.hpp` (namespace `ngstd`) and of the dof tables of
`src/comp/hdivhosurfacefespace.cpp` (namespace `ngcomp`).

* A `double` is an element of a scalar type `α`.  The definitions only ask for the
  operations they use (`*`, `+`, `0`); theorems that need algebraic laws state them
  (`[Semiring α]`, `[CommRing α]`), i.e. they are about exact arithmetic.
* A buffer (`new double[n]`, `cudaMalloc`) is a `List α`; the indeterminate contents of a
  fresh allocation are a parameter of the constructor.
* A C++ exception is `Except.error` with the message of the exception.
* The vendor kernels (`cudaMemcpy`, `cublasDscal`, `cublasDaxpy`, `cublasDdot`,
  `cublasDgemv`, `cublasAxpyEx`, `cusparseSpMV`) are not part of the repository; they are
  written down from the cuBLAS / cuSPARSE documentation.
* Operands are distinct objects (no aliasing between `this` and an argument).
-/

namespace ngla

/-- The class `Add` under a name that the member functions called `Add` do not shadow. -/
abbrev AddOp (α : Type) := Add α

/-- A freshly allocated buffer of `n` doubles (`new double[n]`, `cudaMalloc`): its length is
known, its contents are not. -/
abbrev Buffer (α : Type) (n : Nat) := { l : List α // l.length = n }

/-! ## Vendor primitives -/

/-- The call `cudaMemcpy (dst, src, n * sizeof(double), kind)`: the first `n` elements of
`dst` are replaced by the first `n` elements of `src`. -/
def cudaMemcpy {α : Type} (dst src : List α) (n : Nat) : List α :=
  src.take n ++ dst.drop n

/-- The call `cublasDscal (handle, n, &alpha, x, 1)`: `x[i] = alpha * x[i]` for `i < n`. -/
def cublasDscal {α : Type} [Mul α] (n : Nat) (alpha : α) (x : List α) : List α :=
  (x.take n).map (fun t => alpha * t) ++ x.drop n

/-- The call `cublasDaxpy (handle, n, &alpha, x, 1, y, 1)`:
`y[i] = alpha * x[i] + y[i]` for `i < n`. -/
def cublasDaxpy {α : Type} [Mul α] [Add α] (n : Nat) (alpha : α) (x y : List α) : List α :=
  List.zipWith (fun xi yi => alpha * xi + yi) (x.take n) (y.take n) ++ y.drop n

/-- The call `cublasDdot (handle, n, x, 1, y, 1, &res)`: `res = Σ_{i<n} x[i] * y[i]`. -/
def cublasDdot {α : Type} [Mul α] [Add α] [Zero α] (n : Nat) (x y : List α) : α :=
  (List.zipWith (fun xi yi => xi * yi) (x.take n) (y.take n)).sum

/-! ## Host vector views (ngbla) -/

/-- Modelled from the spec: `FlatVector<double>::operator=` of the basic linear algebra
(not under `src/`); the spec says the foreign source is copied "through host memory":
`dst[i] = src[i]` for the `n` elements of the destination view. -/
def FlatVector_assign {α : Type} (n : Nat) (dst src : List α) : List α :=
  src.take n ++ dst.drop n

/-- Modelled from the spec: the expression `dst += scal * src` on `FlatVector<double>` (not
under `src/`), the "host-side elementwise add": `dst[i] = dst[i] + scal * src[i]` for the
`n` elements of the destination view. -/
def FlatVector_add_scaled {α : Type} [Mul α] [Add α] (n : Nat) (dst : List α) (scal : α)
    (src : List α) : List α :=
  List.zipWith (fun di si => di + scal * si) (dst.take n) (src.take n) ++ dst.drop n

/-- Modelled from the spec: `ngbla::InnerProduct` of two host views (not under `src/`), the
inner product "on host": `Σ_i a[i] * b[i]`. -/
def ngbla_InnerProduct {α : Type} [Mul α] [Add α] [Zero α] (a b : List α) : α :=
  (List.zipWith (fun ai bi => ai * bi) a b).sum

/-! ## UnifiedVector -/

/-- The data members of `class UnifiedVector`: `size`, the host buffer `host_data`, the
device buffer `dev_data` and the two (mutable) freshness flags.  The cuSPARSE dense-vector
descriptor `descr` is a handle on `(size, dev_data)` and carries no data of its own. -/
structure UnifiedVector (α : Type) where
  size : Nat
  host_data : List α
  dev_data : List α
  host_uptodate : Bool
  dev_uptodate : Bool
  deriving DecidableEq, Repr

/-- An abstract `BaseVector` argument: either a `UnifiedVector`
(`dynamic_cast<const UnifiedVector*>` succeeds) or a foreign host vector, of which only
`Size()` and `FVDouble()` (its entries) are used. -/
inductive BaseVector (α : Type) where
  | unified (v : UnifiedVector α)
  | foreign (data : List α)
  deriving DecidableEq, Repr

/-- The member `BaseVector::Size()`. -/
def BaseVector.Size {α : Type} : BaseVector α → Nat
  | .unified v => v.size
  | .foreign data => data.length

namespace UnifiedVector

variable {α : Type}

/-- Both buffers have the allocated length `size`. -/
def WF (v : UnifiedVector α) : Prop :=
  v.host_data.length = v.size ∧ v.dev_data.length = v.size

instance (v : UnifiedVector α) : Decidable v.WF := by
  unfold WF; infer_instance

/-- Constructor `UnifiedVector (int asize)`.  `err` is the status returned by `cudaMalloc`;
`host0` and `dev0` are the indeterminate contents of the two fresh allocations of `asize`
doubles. -/
def new (asize : Nat) (err : Nat) (host0 dev0 : Buffer α asize) :
    Except String (UnifiedVector α) :=
  if err ≠ 0 then
    .error ("UnifiedVector allocation error, ec=" ++ toString err)
  else
    .ok { size := asize, host_data := host0.val, dev_data := dev0.val,
          host_uptodate := false, dev_uptodate := false }

/-- Member `UpdateHost () const`. -/
def UpdateHost (v : UnifiedVector α) : UnifiedVector α :=
  if v.host_uptodate then v
  else
    let v1 := if v.dev_uptodate then
        { v with host_data := cudaMemcpy v.host_data v.dev_data v.size }
      else v
    { v1 with host_uptodate := true }

/-- Member `UpdateDevice () const`. -/
def UpdateDevice (v : UnifiedVector α) : UnifiedVector α :=
  if v.dev_uptodate then v
  else
    let v1 := if v.host_uptodate then
        { v with dev_data := cudaMemcpy v.dev_data v.host_data v.size }
      else v
    { v1 with dev_uptodate := true }

/-- What `UpdateHost ()` writes to `cout` / `cerr`: both branches that would print are
commented out in the source, so nothing. -/
def UpdateHost_cout (v : UnifiedVector α) : List String :=
  if v.host_uptodate then []
  else if v.dev_uptodate then [] else []

/-- What `UpdateDevice ()` writes to `cout`: the line `Host2Device copy!` whenever the
early return is not taken (the `else` branch with the error text is commented out). -/
def UpdateDevice_cout (v : UnifiedVector α) : List String :=
  if v.dev_uptodate then []
  else ["Host2Device copy!"]

/-- Operator `operator= (double d)`. -/
def assign_double [Mul α] (v : UnifiedVector α) (d : α) : UnifiedVector α :=
  let v1 := { v with host_uptodate := false }
  let v2 := { v1 with dev_data := cublasDscal v1.size d v1.dev_data }
  { v2 with dev_uptodate := true }

/-- Member `FVDouble () const`: the state after the call and the elements seen through the
returned view `FlatVector<> (size, host_data)`. -/
def FVDouble (v : UnifiedVector α) : UnifiedVector α × List α :=
  let v1 := v.UpdateHost
  let v2 := { v1 with dev_uptodate := false }
  (v2, v2.host_data.take v2.size)

/-- Operator `operator= (const BaseVector & v2)`: the state of `*this` and of `v2` after the
call (`FVDouble ()` and the freshness flags of a `UnifiedVector` source are `mutable`). -/
def assign (v : UnifiedVector α) (v2 : BaseVector α) : UnifiedVector α × BaseVector α :=
  match v2 with
  | .unified uv2 =>
    if uv2.dev_uptodate then
      let v1 := { v with dev_data := cudaMemcpy v.dev_data uv2.dev_data v.size }
      let v2 := { v1 with dev_uptodate := true }
      ({ v2 with host_uptodate := false }, .unified uv2)
    else if uv2.host_uptodate then
      let src := uv2.FVDouble
      let dst := v.FVDouble
      let v1 := { dst.1 with host_data := FlatVector_assign dst.1.size dst.1.host_data src.2 }
      let v2 := { v1 with host_uptodate := true }
      ({ v2 with dev_uptodate := false }, .unified src.1)
    else
      (v, .unified uv2)
  | .foreign data =>
    let dst := v.FVDouble
    let v1 := { dst.1 with host_data := FlatVector_assign dst.1.size dst.1.host_data data }
    let v2 := { v1 with host_uptodate := true }
    ({ v2 with dev_uptodate := false }, .foreign data)

/-- What `operator= (const BaseVector & v2)` writes to `cerr`. -/
def assign_cerr (v2 : BaseVector α) : List String :=
  match v2 with
  | .unified uv2 =>
    if uv2.dev_uptodate then []
    else if uv2.host_uptodate then []
    else ["operator= (BaseVector) : undefined vector"]
  | .foreign _ => []

/-- Operator `operator[] (const int ind) const`: the state after the call and the element
referred to (`none` when `ind` is outside the host buffer). -/
def index_const (v : UnifiedVector α) (ind : Nat) : UnifiedVector α × Option α :=
  let v1 := v.UpdateHost
  (v1, v1.host_data[ind]?)

/-- Operator `operator[] (const int ind)` (non-const): the state after the call and the
element the returned reference points to. -/
def index (v : UnifiedVector α) (ind : Nat) : UnifiedVector α × Option α :=
  let v1 := v.UpdateHost
  let v2 := { v1 with dev_uptodate := false }
  (v2, v2.host_data[ind]?)

/-- The statement `v[ind] = x` through the non-const `operator[]`. -/
def index_store (v : UnifiedVector α) (ind : Nat) (x : α) : UnifiedVector α :=
  let v1 := (v.index ind).1
  { v1 with host_data := v1.host_data.set ind x }

/-- Member `Scale (double scal)`. -/
def Scale [Mul α] (v : UnifiedVector α) (scal : α) : UnifiedVector α :=
  let v1 := v.UpdateDevice
  let v2 := { v1 with dev_data := cublasDscal v1.size scal v1.dev_data }
  { v2 with host_uptodate := false }

/-- Member `SetScalar (double scal)`. -/
def SetScalar [Mul α] (v : UnifiedVector α) (scal : α) : UnifiedVector α :=
  v.assign_double scal

/-- Member `Add (double scal, const BaseVector & v)`: the state of `*this` and of `v` after
the call. -/
def Add [Mul α] [AddOp α] (u : UnifiedVector α) (scal : α) (v : BaseVector α) :
    UnifiedVector α × BaseVector α :=
  match v with
  | .unified v2 =>
    let u1 := u.UpdateDevice
    let v2' := v2.UpdateDevice
    let u2 := { u1 with dev_data := cublasDaxpy u1.size scal v2'.dev_data u1.dev_data }
    ({ u2 with host_uptodate := false }, .unified v2')
  | .foreign data =>
    let dst := u.FVDouble
    ({ dst.1 with host_data := FlatVector_add_scaled dst.1.size dst.1.host_data scal data },
      .foreign data)

/-- Member `Set (double scal, const BaseVector & v)`. -/
def Set [Mul α] [AddOp α] [Zero α] (u : UnifiedVector α) (scal : α) (v : BaseVector α) :
    UnifiedVector α × BaseVector α :=
  (u.assign_double 0).Add scal v

/-- Member `InnerProduct (const BaseVector & v2, bool conjugate) const`: the result and the
state of `*this` and of `v2` after the call. -/
def InnerProduct [Mul α] [AddOp α] [Zero α] (u : UnifiedVector α) (v2 : BaseVector α)
    (conjugate : Bool) : Except String (α × UnifiedVector α × BaseVector α) :=
  if conjugate then
    .error "conjugate in innerproduct not implemented yet."
  else
    match v2 with
    | .unified uv2 =>
      let u1 := u.UpdateDevice
      let uv2' := uv2.UpdateDevice
      .ok (cublasDdot u1.size u1.dev_data uv2'.dev_data, u1, .unified uv2')
    | .foreign data =>
      let fv := u.FVDouble
      .ok (ngbla_InnerProduct fv.2 data, fv.1, .foreign data)

/-- Member `CreateVector () const`: a new vector of the same size. -/
def CreateVector (v : UnifiedVector α) (err : Nat) (host0 dev0 : Buffer α v.size) :
    Except String (UnifiedVector α) :=
  new v.size err host0 dev0

/-- Member `Memory () const`: the state after the call (the returned pointer is
`host_data`). -/
def Memory (v : UnifiedVector α) : UnifiedVector α :=
  v.UpdateHost

/-- At least one of the two copies is marked fresh. -/
def hasFresh (v : UnifiedVector α) : Prop :=
  v.host_uptodate = true ∨ v.dev_uptodate = true

instance (v : UnifiedVector α) : Decidable v.hasFresh := by
  unfold hasFresh; infer_instance

/-- The device copy is the only one marked fresh (the state after a write on the device). -/
def deviceOwned (v : UnifiedVector α) : Prop :=
  v.host_uptodate = false ∧ v.dev_uptodate = true

instance (v : UnifiedVector α) : Decidable v.deviceOwned := by
  unfold deviceOwned; infer_instance

/-- The host copy is the only one marked fresh (the state after a write on the host). -/
def hostOwned (v : UnifiedVector α) : Prop :=
  v.host_uptodate = true ∧ v.dev_uptodate = false

instance (v : UnifiedVector α) : Decidable v.hostOwned := by
  unfold hostOwned; infer_instance

/-- The values a host read returns: the host buffer after `UpdateHost ()`. -/
def read (v : UnifiedVector α) : List α :=
  v.UpdateHost.host_data

/-- Coherence of the two copies: when both are marked fresh they hold the same values. -/
def Coherent (v : UnifiedVector α) : Prop :=
  v.host_uptodate = true → v.dev_uptodate = true → v.host_data = v.dev_data

instance [DecidableEq α] (v : UnifiedVector α) : Decidable v.Coherent := by
  unfold Coherent; infer_instance

end UnifiedVector

/-- A `BaseVector` argument has a fresh copy: a foreign host vector always has. -/
def BaseVector.hasFresh {α : Type} : BaseVector α → Prop
  | .unified v => v.hasFresh
  | .foreign _ => True

/-! ## Host matrices (ngla / ngbla) -/

/-- Modelled from the spec: the host sparse matrix `SparseMatrix<double>` (declared outside
`src/`) in compressed-row format, "storing, per row, a contiguous run of (column, value)
pairs, with a row-offset table giving each row's start position": `firsti` is the row-offset
table (`height + 1` entries), `colnr` and `data` hold the `nze` columns and values. -/
structure SparseMatrix (α : Type) where
  height : Nat
  width : Nat
  nze : Nat
  firsti : List Nat
  colnr : List Nat
  data : List α
  deriving DecidableEq, Repr

namespace SparseMatrix

variable {α : Type}

/-- Modelled from the spec: `Height ()` of the host sparse matrix. -/
def Height (mat : SparseMatrix α) : Nat := mat.height

/-- Modelled from the spec: `Width ()` of the host sparse matrix. -/
def Width (mat : SparseMatrix α) : Nat := mat.width

/-- Modelled from the spec: `NZE ()`, the number of stored entries. -/
def NZE (mat : SparseMatrix α) : Nat := mat.nze

/-- Modelled from the spec: `First (i)`, the position at which row `i` starts. -/
def First (mat : SparseMatrix α) (i : Nat) : Nat := mat.firsti.getD i 0

/-- Modelled from the spec: `GetRowIndices (i)`, the columns of the stored entries of
row `i`. -/
def GetRowIndices (mat : SparseMatrix α) (i : Nat) : List Nat :=
  (mat.colnr.drop (mat.First i)).take (mat.First (i + 1) - mat.First i)

/-- Modelled from the spec: `GetRowValues (i)`, the values of the stored entries of
row `i`. -/
def GetRowValues (mat : SparseMatrix α) (i : Nat) : List α :=
  (mat.data.drop (mat.First i)).take (mat.First (i + 1) - mat.First i)

/-- A well-formed compressed-row matrix whose offsets fit the 32-bit index type of the
device copy. -/
def Valid (mat : SparseMatrix α) : Prop :=
  mat.firsti.length = mat.height + 1 ∧ mat.First 0 = 0 ∧ mat.First mat.height = mat.nze ∧
  (∀ i, i < mat.height → mat.First i ≤ mat.First (i + 1)) ∧
  mat.colnr.length = mat.nze ∧ mat.data.length = mat.nze ∧
  (∀ c ∈ mat.colnr, c < mat.width) ∧ mat.nze < 2 ^ 31

instance (mat : SparseMatrix α) : Decidable mat.Valid := by
  unfold Valid; infer_instance

/-- The product of the host matrix with a vector, row by row over the stored entries
`(i, j, a)`: `(A x)[i] = Σ a * x[j]`. -/
def rowSum [Mul α] [Add α] [Zero α] (mat : SparseMatrix α) (x : List α) (i : Nat) : α :=
  (List.zipWith (fun j a => a * x.getD j 0) (mat.GetRowIndices i) (mat.GetRowValues i)).sum

end SparseMatrix

/-- Modelled from the spec: the host dense matrix `Matrix<double>` (declared outside `src/`),
"a single contiguous buffer of height×width doubles in row-major order". -/
structure Matrix (α : Type) where
  height : Nat
  width : Nat
  data : List α
  deriving DecidableEq, Repr

namespace Matrix

variable {α : Type}

/-- Modelled from the spec: `Height ()` of the host dense matrix. -/
def Height (mat : Matrix α) : Nat := mat.height

/-- Modelled from the spec: `Width ()` of the host dense matrix. -/
def Width (mat : Matrix α) : Nat := mat.width

/-- Modelled from the spec: `Data ()`, the row-major buffer. -/
def Data (mat : Matrix α) : List α := mat.data

/-- Modelled from the spec: the entry `mat (i, j)` of the row-major matrix. -/
def entry [Zero α] (mat : Matrix α) (i j : Nat) : α := mat.data.getD (i * mat.width + j) 0

end Matrix

/-! ## cuSPARSE / cuBLAS matrix kernels -/

/-- The conversion of a `size_t` to `int` (32 bits, two's complement). -/
def toInt32 (n : Nat) : Int := ((n + 2 ^ 31) % 2 ^ 32 : Nat) - 2 ^ 31

/-- What `cusparseCreateCsr` records in a `cusparseSpMatDescr_t`: the dimensions and the
three device arrays (32-bit row offsets, column indices, values; index base zero). -/
structure cusparseSpMatDescr (α : Type) where
  rows : Nat
  cols : Nat
  nnz : Nat
  csrRowOffsets : List Int
  csrColInd : List Nat
  csrValues : List α
  deriving DecidableEq, Repr

/-- The dot product of row `i` of a CSR descriptor with `x`:
`Σ_{k = rowOffsets[i]}^{rowOffsets[i+1] - 1} values[k] * x[colInd[k]]`. -/
def cusparseSpMatDescr.rowDot {α : Type} [Mul α] [Add α] [Zero α]
    (A : cusparseSpMatDescr α) (x : List α) (i : Nat) : α :=
  let s := (A.csrRowOffsets.getD i 0).toNat
  let e := (A.csrRowOffsets.getD (i + 1) 0).toNat
  ((List.range' s (e - s)).map
    (fun k => A.csrValues.getD k 0 * x.getD (A.csrColInd.getD k 0) 0)).sum

/-- The call `cusparseSpMV (handle, CUSPARSE_OPERATION_NON_TRANSPOSE, &alpha, matA, vecX,
&beta, vecY, ...)`: `Y = alpha * A * X + beta * Y` on the `rows` entries of `Y`. -/
def cusparseSpMV {α : Type} [Mul α] [Add α] [Zero α] (alpha : α) (matA : cusparseSpMatDescr α)
    (x : List α) (beta : α) (y : List α) : List α :=
  (List.range matA.rows).map (fun i => alpha * matA.rowDot x i + beta * y.getD i 0)
    ++ y.drop matA.rows

/-- The operation argument of the cuBLAS level-2 routines. -/
inductive cublasOperation where
  | CUBLAS_OP_N
  | CUBLAS_OP_T
  deriving DecidableEq, Repr

/-- The call `cublasDgemv (handle, trans, m, n, &alpha, A, lda, x, 1, &beta, y, 1)`: `A` is
an `m`-by-`n` matrix stored column-major with leading dimension `lda`
(`A(r, c) = A[r + c * lda]`) and `y = alpha * op(A) * x + beta * y`. -/
def cublasDgemv {α : Type} [Mul α] [Add α] [Zero α] (trans : cublasOperation) (m n : Nat)
    (alpha : α) (A : List α) (lda : Nat) (x : List α) (beta : α) (y : List α) : List α :=
  match trans with
  | .CUBLAS_OP_N =>
    (List.range m).map (fun r =>
      alpha * ((List.range n).map (fun c => A.getD (r + c * lda) 0 * x.getD c 0)).sum
        + beta * y.getD r 0) ++ y.drop m
  | .CUBLAS_OP_T =>
    (List.range n).map (fun c =>
      alpha * ((List.range m).map (fun r => A.getD (r + c * lda) 0 * x.getD r 0)).sum
        + beta * y.getD c 0) ++ y.drop n

/-- The call `cublasAxpyEx (handle, n, &alpha, CUDA_R_64F, x, CUDA_R_64F, 1, y, CUDA_R_64F,
1, CUDA_R_64F)`: `y[i] = alpha * x[i] + y[i]` for `i < n`. -/
def cublasAxpyEx {α : Type} [Mul α] [Add α] (n : Nat) (alpha : α) (x y : List α) : List α :=
  List.zipWith (fun xi yi => alpha * xi + yi) (x.take n) (y.take n) ++ y.drop n

/-- The call `cublasScalEx (handle, n, &alpha, CUDA_R_64F, x, CUDA_R_64F, 1, CUDA_R_64F)`:
`x[i] = alpha * x[i]` for `i < n`. -/
def cublasScalEx {α : Type} [Mul α] (n : Nat) (alpha : α) (x : List α) : List α :=
  (x.take n).map (fun t => alpha * t) ++ x.drop n

/-! ## DevSparseMatrix -/

/-- The data members of `class DevSparseMatrix`; `descr` is the CSR descriptor created over
`dev_ind`, `dev_col`, `dev_val`. -/
structure DevSparseMatrix (α : Type) where
  height : Nat
  width : Nat
  nze : Nat
  dev_ind : List Int
  dev_col : List Nat
  dev_val : List α
  deriving DecidableEq, Repr

namespace DevSparseMatrix

variable {α : Type}

/-- Constructor `DevSparseMatrix (const SparseMatrix<double> & mat)`.  Each device array is
allocated and then overwritten in full by its `cudaMemcpy`. -/
def ofSparseMatrix (mat : SparseMatrix α) : DevSparseMatrix α :=
  let temp_ind := (List.range (mat.Height + 1)).map (fun i => toInt32 (mat.First i))
  { height := mat.Height, width := mat.Width, nze := mat.NZE,
    dev_ind := temp_ind.take (mat.Height + 1),
    dev_col := (mat.colnr.drop (mat.First 0)).take mat.NZE,
    dev_val := (mat.data.drop (mat.First 0)).take mat.NZE }

/-- The member `descr`: `cusparseCreateCsr (&descr, height, width, nze, dev_ind, dev_col,
dev_val, ...)`. -/
def descr (A : DevSparseMatrix α) : cusparseSpMatDescr α :=
  { rows := A.height, cols := A.width, nnz := A.nze,
    csrRowOffsets := A.dev_ind, csrColInd := A.dev_col, csrValues := A.dev_val }

/-- Member `Mult (const BaseVector & x, BaseVector & y) const`: the state of `x` and of `y`
after the call; a failing reference `dynamic_cast` throws `std::bad_cast`. -/
def Mult [Mul α] [AddOp α] [Zero α] [One α] (A : DevSparseMatrix α) (x y : BaseVector α) :
    Except String (UnifiedVector α × UnifiedVector α) :=
  match x, y with
  | .unified ux, .unified uy =>
    let ux1 := ux.UpdateDevice
    let uy1 := uy.assign_double 0
    let uy2 := uy1.UpdateDevice
    let alpha : α := 1
    let beta : α := 0
    let uy3 := { uy2 with dev_data := cusparseSpMV alpha A.descr ux1.dev_data beta uy2.dev_data }
    .ok (ux1, { uy3 with host_uptodate := false })
  | _, _ => .error "std::bad_cast"

/-- Member `MultAdd (double s, const BaseVector & x, BaseVector & y) const`.  The kernel is
called with the local `cusparseSpMatDescr_t matA`, which is never initialised: its
indeterminate value is the parameter `matA`. -/
def MultAdd [Mul α] [AddOp α] [Zero α] [One α] (_A : DevSparseMatrix α)
    (matA : cusparseSpMatDescr α) (s : α) (x y : BaseVector α) :
    Except String (UnifiedVector α × UnifiedVector α) :=
  match x, y with
  | .unified ux, .unified uy =>
    let ux1 := ux.UpdateDevice
    let uy1 := uy.UpdateDevice
    let alpha : α := 1
    let beta : α := s
    let uy2 := { uy1 with dev_data := cusparseSpMV alpha matA ux1.dev_data beta uy1.dev_data }
    .ok (ux1, { uy2 with host_uptodate := false })
  | _, _ => .error "std::bad_cast"

end DevSparseMatrix

/-! ## DevDMatrix -/

/-- The data members of `class DevDMatrix`. -/
structure DevDMatrix (α : Type) where
  height : Nat
  width : Nat
  dev_data : List α
  deriving DecidableEq, Repr

/-- An abstract `BaseMatrix` argument: a `DevDMatrix` (`dynamic_cast<const DevDMatrix*>`
succeeds) or a matrix of another class. -/
inductive BaseMatrix (α : Type) where
  | devD (m : DevDMatrix α)
  | other
  deriving DecidableEq, Repr

namespace DevDMatrix

variable {α : Type}

/-- Constructor `DevDMatrix (const Matrix<>& mat)`: the new buffer of `height * width`
doubles is overwritten in full by the `cudaMemcpy` from `mat.Data ()`. -/
def ofMatrix (mat : Matrix α) : DevDMatrix α :=
  { height := mat.Height, width := mat.Width,
    dev_data := mat.Data.take (mat.Height * mat.Width) }

/-- Member `Height ()`. -/
def Height (a : DevDMatrix α) : Nat := a.height

/-- Member `Width ()`. -/
def Width (a : DevDMatrix α) : Nat := a.width

/-- Member `DevData () const`. -/
def DevData (a : DevDMatrix α) : List α := a.dev_data

/-- Operator `operator= (const DevDMatrix & mat) const`. -/
def assign (a mat : DevDMatrix α) : Except String (DevDMatrix α) :=
  if a.height ≠ mat.Height ∨ a.width ≠ mat.Width then
    .error "sizes of DevDMatrix do not fit during assign"
  else
    .ok { a with dev_data := cudaMemcpy a.dev_data mat.DevData (a.height * a.width) }

/-- Member `Add (const BaseMatrix& b)`: the state of `*this` after the call (`b` is only
read). -/
def Add [Mul α] [AddOp α] [One α] (a : DevDMatrix α) (b : BaseMatrix α) :
    Except String (DevDMatrix α) :=
  match b with
  | .other => .error "DevDMatrix::Mult only implemented for DevDMatrices (yet)."
  | .devD devptr =>
    let alpha : α := 1
    .ok { a with dev_data := cublasAxpyEx (a.height * a.width) alpha devptr.DevData a.dev_data }

/-- Member `Scale (double d)`. -/
def Scale [Mul α] (a : DevDMatrix α) (d : α) : DevDMatrix α :=
  { a with dev_data := cublasScalEx (a.height * a.width) d a.dev_data }

/-- Member `MultAdd (double s, const BaseVector& x, BaseVector& y) const`: the state of `x`
and of `y` after the call. -/
def MultAdd [Mul α] [AddOp α] [Zero α] [One α] (a : DevDMatrix α) (s : α)
    (x y : BaseVector α) : Except String (UnifiedVector α × UnifiedVector α) :=
  match x, y with
  | .unified ux, .unified uy =>
    let ux1 := ux.UpdateDevice
    let uy1 := uy.UpdateDevice
    let alpha : α := 1
    let beta : α := s
    let y1 := cublasDgemv cublasOperation.CUBLAS_OP_T a.width a.height alpha a.dev_data
      a.width ux1.dev_data beta uy1.dev_data
    let uy2 := { uy1 with dev_data := y1 }
    .ok (ux1, { uy2 with host_uptodate := false })
  | _, _ => .error "Inputs no UnifiedVector (will be fixed)"

/-- Member `Mult (const BaseVector & x, BaseVector & y) const`. -/
def Mult [Mul α] [AddOp α] [Zero α] [One α] (a : DevDMatrix α) (x y : BaseVector α) :
    Except String (UnifiedVector α × UnifiedVector α) :=
  a.MultAdd 0 x y

end DevDMatrix

/-! ## Calls that may throw: outcome and operands at exit -/

/-- Member `UnifiedVector::InnerProduct (const BaseVector & v2, bool conjugate) const`
again, this time with the operands as they are when the call is left: the result or the
exception, then the state of `*this` and of `v2`. -/
def UnifiedVector.InnerProduct_outcome {α : Type} [Mul α] [AddOp α] [Zero α]
    (u : UnifiedVector α) (v2 : BaseVector α) (conjugate : Bool) :
    Except String α × UnifiedVector α × BaseVector α :=
  if conjugate then
    (.error "conjugate in innerproduct not implemented yet.", u, v2)
  else
    match v2 with
    | .unified uv2 =>
      let u1 := u.UpdateDevice
      let uv2' := uv2.UpdateDevice
      (.ok (cublasDdot u1.size u1.dev_data uv2'.dev_data), u1, .unified uv2')
    | .foreign data =>
      let fv := u.FVDouble
      (.ok (ngbla_InnerProduct fv.2 data), fv.1, .foreign data)

/-- Member `DevDMatrix::MultAdd (double s, const BaseVector& x, BaseVector& y) const` again,
this time with the operands as they are when the call is left: normal return or the
exception, then the state of `x` and of `y`. -/
def DevDMatrix.MultAdd_outcome {α : Type} [Mul α] [AddOp α] [Zero α] [One α]
    (a : DevDMatrix α) (s : α) (x y : BaseVector α) :
    Except String Unit × BaseVector α × BaseVector α :=
  match x, y with
  | .unified ux, .unified uy =>
    let ux1 := ux.UpdateDevice
    let uy1 := uy.UpdateDevice
    let alpha : α := 1
    let beta : α := s
    let y1 := cublasDgemv cublasOperation.CUBLAS_OP_T a.width a.height alpha a.dev_data
      a.width ux1.dev_data beta uy1.dev_data
    let uy2 := { uy1 with dev_data := y1 }
    (.ok (), .unified ux1, .unified { uy2 with host_uptodate := false })
  | _, _ => (.error "Inputs no UnifiedVector (will be fixed)", x, y)

/-- Member `DevDMatrix::Mult (const BaseVector & x, BaseVector & y) const` with the operands
at exit. -/
def DevDMatrix.Mult_outcome {α : Type} [Mul α] [AddOp α] [Zero α] [One α]
    (a : DevDMatrix α) (x y : BaseVector α) :
    Except String Unit × BaseVector α × BaseVector α :=
  a.MultAdd_outcome 0 x y

/-- The entry `(i, j)` of the row-major device buffer of a `DevDMatrix`. -/
def DevDMatrix.entry {α : Type} [Zero α] (a : DevDMatrix α) (i j : Nat) : α :=
  a.dev_data.getD (i * a.width + j) 0

/-! ## DevEBEMatrix and the device matrix factory -/

/-- Modelled from the spec: the host element-by-element matrix
`ConstantElementByElementMatrix` (declared outside `src/`), "one shared small dense block
reused across many logical elements, each mapping into the global system via its own
row/column index list". -/
structure ConstantElementByElementMatrix (α : Type) where
  height : Nat
  width : Nat
  matrix : Matrix α
  col_dnums : List (List Nat)
  row_dnums : List (List Nat)
  deriving DecidableEq, Repr

namespace ConstantElementByElementMatrix

variable {α : Type}

/-- Modelled from the spec: `GetMatrix ()`, the shared local block. -/
def GetMatrix (ebemat : ConstantElementByElementMatrix α) : Matrix α := ebemat.matrix

/-- Modelled from the spec: `GetColDNums ()`, the per-element column dof lists. -/
def GetColDNums (ebemat : ConstantElementByElementMatrix α) : List (List Nat) :=
  ebemat.col_dnums

/-- Modelled from the spec: `GetRowDNums ()`, the per-element row dof lists. -/
def GetRowDNums (ebemat : ConstantElementByElementMatrix α) : List (List Nat) :=
  ebemat.row_dnums

end ConstantElementByElementMatrix

/-- The data members of `class DevEBEMatrix` that its constructor initialises. -/
structure DevEBEMatrix (α : Type) where
  devmat : DevDMatrix α
  col_dnums : List (List Nat)
  row_dnums : List (List Nat)
  deriving DecidableEq, Repr

namespace DevEBEMatrix

variable {α : Type}

/-- Constructor `DevEBEMatrix (const ConstantElementByElementMatrix& ebemat)`: the member
initialisers run, then the body throws. -/
def ofEBE (ebemat : ConstantElementByElementMatrix α) : Except String (DevEBEMatrix α) :=
  let _members : DevEBEMatrix α :=
    { devmat := DevDMatrix.ofMatrix ebemat.GetMatrix,
      col_dnums := ebemat.GetColDNums, row_dnums := ebemat.GetRowDNums }
  .error "DevEBEMatrix not implemented yet."

/-- Member `MultAdd (double s, const UnifiedVector& x, UnifiedVector& y)`: the longest column
dof list is computed, then the body throws. -/
def MultAdd (A : DevEBEMatrix α) (_s : α) (_x _y : UnifiedVector α) :
    Except String (UnifiedVector α × UnifiedVector α) :=
  let _maxs := A.col_dnums.foldl (fun maxs dnums => max maxs dnums.length) 0
  .error "DevEBEMatrix::MultAdd not implemented yet."

end DevEBEMatrix

/-- The host matrix handed to `CreateDevMatrix (BaseMatrix & mat)`, by its dynamic type
(`typeid (mat)`): a `SparseMatrix<double>`, a `ConstantElementByElementMatrix`, or another
class with the given type name. -/
inductive HostMatrix (α : Type) where
  | sparse (mat : SparseMatrix α)
  | ebe (mat : ConstantElementByElementMatrix α)
  | other (name : String)
  deriving DecidableEq, Repr

/-- The device matrix a `shared_ptr<BaseMatrix>` returned by `CreateDevMatrix` points to. -/
inductive DevMatrix (α : Type) where
  | sparse (mat : DevSparseMatrix α)
  | ebe (mat : DevEBEMatrix α)
  | dense (mat : DevDMatrix α)
  deriving DecidableEq, Repr

/-- Function `CreateDevMatrix (BaseMatrix & mat)`.  `created` is what
`mat.CreateDeviceMatrix ()` returns: the matrix built by a registered device creator, or
`none` for the null pointer when no creator is registered for the type. -/
def CreateDevMatrix {α : Type} (mat : HostMatrix α) (created : Option (DevMatrix α)) :
    Except String (DevMatrix α) :=
  match created with
  | some res => .ok res
  | none =>
    match mat with
    | .sparse sparse_mat => .ok (.sparse (DevSparseMatrix.ofSparseMatrix sparse_mat))
    | .ebe ebe_mat =>
      match DevEBEMatrix.ofEBE ebe_mat with
      | .ok dev => .ok (.ebe dev)
      | .error e => .error e
    | .other name => .error ("matrix type not supported: " ++ name)

/-- An element-by-element host matrix: a 2 x 2 local block used by two elements. -/
def ebe_example : ConstantElementByElementMatrix Int :=
  { height := 3, width := 3, matrix := { height := 2, width := 2, data := [1, 2, 3, 4] },
    col_dnums := [[0, 1], [1, 2]], row_dnums := [[0, 1], [1, 2]] }

/-! ## Reachable states of a UnifiedVector -/

/-- The argument `b` of an operation on a vector of length `n` holds at least `n` elements
(and, if it is a `UnifiedVector`, its buffers have its own length), so that the copy or
kernel reads inside `b`'s buffers. -/
def BaseVector.Holds {α : Type} (b : BaseVector α) (n : Nat) : Prop :=
  match b with
  | .unified v => v.WF ∧ n ≤ v.size
  | .foreign data => n ≤ data.length

/-- The well-formedness and coherence of a `UnifiedVector`: both buffers have length `size`,
and when both copies are marked fresh they are equal. -/
def UnifiedVector.Inv {α : Type} (v : UnifiedVector α) : Prop :=
  v.WF ∧ v.Coherent

/-- One call seen from a `UnifiedVector`: `Call v v'` when some member function called on
`v`, or some call that takes `v` as an argument (the source of an
assignment, `Add`, `Set`, `InnerProduct`, or the operand `x` / `y` of a device matrix
`Mult` / `MultAdd`) and returns normally, takes `v` from state `v` to state `v'`.  The other
vector of a binary operation holds enough elements, and a matrix kernel writes at most
`size` elements of its output, i.e. every access stays inside the buffers.  What the caller
does later with a reference, view or pointer that the call returned is not part of the call:
see `host_store` and `Step`. -/
inductive UnifiedVector.Call {α : Type} [Mul α] [AddOp α] [Zero α] [One α] :
    UnifiedVector α → UnifiedVector α → Prop where
  | assign_double (v : UnifiedVector α) (d : α) : Call v (v.assign_double d)
  | assign (v : UnifiedVector α) (b : BaseVector α) (hb : b.Holds v.size) :
      Call v (v.assign b).1
  | assign_source (a v v' : UnifiedVector α)
      (h : (a.assign (.unified v)).2 = .unified v') : Call v v'
  | index_const (v : UnifiedVector α) (i : Nat) : Call v (v.index_const i).1
  | index (v : UnifiedVector α) (i : Nat) : Call v (v.index i).1
  | index_store (v : UnifiedVector α) (i : Nat) (d : α) : Call v (v.index_store i d)
  | Scale (v : UnifiedVector α) (d : α) : Call v (v.Scale d)
  | SetScalar (v : UnifiedVector α) (d : α) : Call v (v.SetScalar d)
  | Set (v : UnifiedVector α) (d : α) (b : BaseVector α) (hb : b.Holds v.size) :
      Call v (v.Set d b).1
  | Set_source (a : UnifiedVector α) (d : α) (v v' : UnifiedVector α)
      (h : (a.Set d (.unified v)).2 = .unified v') : Call v v'
  | Add (v : UnifiedVector α) (d : α) (b : BaseVector α) (hb : b.Holds v.size) :
      Call v (v.Add d b).1
  | Add_source (a : UnifiedVector α) (d : α) (v v' : UnifiedVector α)
      (h : (a.Add d (.unified v)).2 = .unified v') : Call v v'
  | InnerProduct (v : UnifiedVector α) (b : BaseVector α) (c : Bool) (r : α)
      (v' : UnifiedVector α) (b' : BaseVector α)
      (h : v.InnerProduct b c = .ok (r, v', b')) : Call v v'
  | InnerProduct_source (a v : UnifiedVector α) (c : Bool) (r : α) (a' v' : UnifiedVector α)
      (h : a.InnerProduct (.unified v) c = .ok (r, a', .unified v')) : Call v v'
  | UpdateHost (v : UnifiedVector α) : Call v v.UpdateHost
  | UpdateDevice (v : UnifiedVector α) : Call v v.UpdateDevice
  | FVDouble (v : UnifiedVector α) : Call v v.FVDouble.1
  | Memory (v : UnifiedVector α) : Call v v.Memory
  | DevSparseMatrix_Mult_x (A : DevSparseMatrix α) (x y x' y' : UnifiedVector α)
      (h : A.Mult (.unified x) (.unified y) = .ok (x', y')) : Call x x'
  | DevSparseMatrix_Mult_y (A : DevSparseMatrix α) (x y x' y' : UnifiedVector α)
      (hy : A.height ≤ y.size)
      (h : A.Mult (.unified x) (.unified y) = .ok (x', y')) : Call y y'
  | DevSparseMatrix_MultAdd_x (A : DevSparseMatrix α) (matA : cusparseSpMatDescr α) (s : α)
      (x y x' y' : UnifiedVector α)
      (h : A.MultAdd matA s (.unified x) (.unified y) = .ok (x', y')) : Call x x'
  | DevSparseMatrix_MultAdd_y (A : DevSparseMatrix α) (matA : cusparseSpMatDescr α) (s : α)
      (x y x' y' : UnifiedVector α) (hy : matA.rows ≤ y.size)
      (h : A.MultAdd matA s (.unified x) (.unified y) = .ok (x', y')) : Call y y'
  | DevDMatrix_MultAdd_x (D : DevDMatrix α) (s : α) (x y x' y' : UnifiedVector α)
      (h : D.MultAdd s (.unified x) (.unified y) = .ok (x', y')) : Call x x'
  | DevDMatrix_MultAdd_y (D : DevDMatrix α) (s : α) (x y x' y' : UnifiedVector α)
      (hy : D.height ≤ y.size)
      (h : D.MultAdd s (.unified x) (.unified y) = .ok (x', y')) : Call y y'
  | DevDMatrix_Mult_x (D : DevDMatrix α) (x y x' y' : UnifiedVector α)
      (h : D.Mult (.unified x) (.unified y) = .ok (x', y')) : Call x x'
  | DevDMatrix_Mult_y (D : DevDMatrix α) (x y x' y' : UnifiedVector α)
      (hy : D.height ≤ y.size)
      (h : D.Mult (.unified x) (.unified y) = .ok (x', y')) : Call y y'

/-- A store `*p = d` through a reference, view or pointer into the host buffer that an earlier
call handed out and the caller kept (`double & r = v[i]; ...; r = d;`, an element of the
`FlatVector` returned by `FVDouble ()`, or the pointer returned by `Memory ()`): element `i`
of `host_data` changes and no flag does, since no member function runs. -/
def UnifiedVector.host_store {α : Type} (v : UnifiedVector α) (i : Nat) (d : α) :
    UnifiedVector α :=
  { v with host_data := v.host_data.set i d }

/-- One step of a program on a `UnifiedVector`.  `Step e v e' v'`: the vector goes from state
`v` to `v'`; `e` and `e'` tell whether the caller holds a reference, view or pointer into the
host buffer before and after.  A step is a call (`Call`); a call of the non-const
`operator[]`, of `FVDouble ()` or of `Memory ()` whose result the caller keeps; or, once the
caller holds such a reference, a store through it (`host_store`). -/
inductive UnifiedVector.Step {α : Type} [Mul α] [AddOp α] [Zero α] [One α] :
    Bool → UnifiedVector α → Bool → UnifiedVector α → Prop where
  | call (e : Bool) (v v' : UnifiedVector α) (h : UnifiedVector.Call v v') : Step e v e v'
  | index (e : Bool) (v : UnifiedVector α) (i : Nat) : Step e v true (v.index i).1
  | FVDouble (e : Bool) (v : UnifiedVector α) : Step e v true v.FVDouble.1
  | Memory (e : Bool) (v : UnifiedVector α) : Step e v true v.Memory
  | host_store (v : UnifiedVector α) (i : Nat) (d : α) : Step true v true (v.host_store i d)

/-- The states of a `UnifiedVector` reachable from the constructor `UnifiedVector (int)` by
any sequence of steps; `Reachable e v` with `e` telling whether the caller holds a reference
into the host buffer. -/
inductive UnifiedVector.Reachable {α : Type} [Mul α] [AddOp α] [Zero α] [One α] :
    Bool → UnifiedVector α → Prop where
  | new (asize err : Nat) (host0 dev0 : Buffer α asize) (v : UnifiedVector α)
      (h : UnifiedVector.new asize err host0 dev0 = .ok v) : Reachable false v
  | step (e e' : Bool) (v v' : UnifiedVector α) (hv : Reachable e v)
      (hs : UnifiedVector.Step e v e' v') : Reachable e' v'

/-- The states reachable by the sequences of steps in which every store through a kept
reference, view or pointer is made while the device copy is marked stale
(`dev_uptodate = false`), as it is right after the non-const `operator[]` or `FVDouble ()`
returned. -/
inductive UnifiedVector.ReachableSync {α : Type} [Mul α] [AddOp α] [Zero α] [One α] :
    Bool → UnifiedVector α → Prop where
  | new (asize err : Nat) (host0 dev0 : Buffer α asize) (v : UnifiedVector α)
      (h : UnifiedVector.new asize err host0 dev0 = .ok v) : ReachableSync false v
  | call (e : Bool) (v v' : UnifiedVector α) (hv : ReachableSync e v)
      (h : UnifiedVector.Call v v') : ReachableSync e v'
  | index (e : Bool) (v : UnifiedVector α) (i : Nat) (hv : ReachableSync e v) :
      ReachableSync true (v.index i).1
  | FVDouble (e : Bool) (v : UnifiedVector α) (hv : ReachableSync e v) :
      ReachableSync true v.FVDouble.1
  | Memory (e : Bool) (v : UnifiedVector α) (hv : ReachableSync e v) :
      ReachableSync true v.Memory
  | host_store (v : UnifiedVector α) (i : Nat) (d : α) (hv : ReachableSync true v)
      (hd : v.dev_uptodate = false) : ReachableSync true (v.host_store i d)

/-- A vector whose two copies are both marked fresh and differ: host `[9, 5]`, device
`[2, 5]`. -/
def vec_incoherent_9_5 : UnifiedVector Int :=
  { size := 2, host_data := [9, 5], dev_data := [2, 5],
    host_uptodate := true, dev_uptodate := true }

/-- A vector of three elements whose two copies are both marked fresh and differ: host
`[1, 1, 1]`, device `[0, 0, 7]`. -/
def vec_incoherent_1_1_1 : UnifiedVector Int :=
  { size := 3, host_data := [1, 1, 1], dev_data := [0, 0, 7],
    host_uptodate := true, dev_uptodate := true }

/-- A vector of three elements whose two copies are both marked fresh and differ: host
`[1, 0, 1]`, device `[0, 0, 7]`. -/
def vec_incoherent_1_0_1 : UnifiedVector Int :=
  { size := 3, host_data := [1, 0, 1], dev_data := [0, 0, 7],
    host_uptodate := true, dev_uptodate := true }

/-! ## DevJacobiPrecond -/

/-- Modelled from the spec: `operator() (row, col)` of the host sparse matrix (declared
outside `src/`), the value of the stored entry at `(row, col)`: the first entry of row `row`
with column `col` (`0` when the row stores none). -/
def SparseMatrix.entry {α : Type} [Zero α] (mat : SparseMatrix α) (row col : Nat) : α :=
  match (List.zip (mat.GetRowIndices row) (mat.GetRowValues row)).find?
      (fun p => p.1 == col) with
  | some p => p.2
  | none => 0

/-- Modelled from the spec: `BitArray::Test (i)` of the bit mask `inner` (declared outside
`src/`): whether bit `i` is set. -/
def BitArray_Test (bits : List Bool) (i : Nat) : Bool :=
  bits.getD i false

/-- The locals of the constructor `DevJacobiPrecond::DevJacobiPrecond` that its loop updates:
the counter `nze` and the arrays `tmp_ind`, `tmp_col`, `tmp_val`. -/
structure DevJacobiPrecond_locals (α : Type) where
  nze : Nat
  tmp_ind : List Int
  tmp_col : List Nat
  tmp_val : List α
  deriving DecidableEq, Repr

/-- The data members of `class DevJacobiPrecond` set by its constructor: the mask `inner`
(`none` for a null pointer) and the members of the CSR device matrix. -/
structure DevJacobiPrecond (α : Type) where
  inner : Option (List Bool)
  height : Nat
  width : Nat
  nze : Nat
  dev_ind : List Int
  dev_col : List Nat
  dev_val : List α
  deriving DecidableEq, Repr

namespace DevJacobiPrecond

variable {α : Type}

/-- The loop condition `!inner || inner->Test(i)`. -/
def selected (inner : Option (List Bool)) (i : Nat) : Bool :=
  match inner with
  | none => true
  | some bits => BitArray_Test bits i

/-- The body of the loop `for (int i=0; i<height; i++)` of the constructor. -/
def loop_body [Zero α] [One α] [Div α] (amat : SparseMatrix α) (inner : Option (List Bool))
    (st : DevJacobiPrecond_locals α) (i : Nat) : DevJacobiPrecond_locals α :=
  if selected inner i then
    let st1 := { st with tmp_col := st.tmp_col.set st.nze i }
    let st2 := { st1 with tmp_ind := st1.tmp_ind.set (i + 1) (st1.tmp_ind.getD i 0 + 1) }
    let st3 := { st2 with tmp_val := st2.tmp_val.set st2.nze (1 / amat.entry i i) }
    { st3 with nze := st3.nze + 1 }
  else
    { st with tmp_ind := st.tmp_ind.set (i + 1) (st.tmp_ind.getD i 0) }

/-- The locals of the constructor when its loop has run: `nze = 0`, `tmp_ind[0] = 0`, then
the loop over `0 .. height-1`.  `ind0`, `col0`, `val0` are the indeterminate contents of the
new arrays `tmp_ind (height+1)`, `tmp_col (height)`, `tmp_val (height)`. -/
def locals [Zero α] [One α] [Div α] (amat : SparseMatrix α) (inner : Option (List Bool))
    (ind0 : Buffer Int (amat.Height + 1)) (col0 : Buffer Nat amat.Height)
    (val0 : Buffer α amat.Height) : DevJacobiPrecond_locals α :=
  let height := amat.Height
  let init : DevJacobiPrecond_locals α :=
    { nze := 0, tmp_ind := ind0.val.set 0 0, tmp_col := col0.val, tmp_val := val0.val }
  (List.range height).foldl (loop_body amat inner) init

/-- Constructor `DevJacobiPrecond (const SparseMatrix<double> & amat,
shared_ptr<BitArray> ainner, bool use_par)`.  Each device array is allocated and then
overwritten in full by its `cudaMemcpy` from the start of the host array. -/
def ofSparseMatrix [Zero α] [One α] [Div α] (amat : SparseMatrix α)
    (ainner : Option (List Bool)) (_use_par : Bool)
    (ind0 : Buffer Int (amat.Height + 1)) (col0 : Buffer Nat amat.Height)
    (val0 : Buffer α amat.Height) : DevJacobiPrecond α :=
  let st := locals amat ainner ind0 col0 val0
  { inner := ainner, height := amat.Height, width := amat.Height, nze := st.nze,
    dev_ind := st.tmp_ind.take (amat.Height + 1),
    dev_col := st.tmp_col.take st.nze,
    dev_val := st.tmp_val.take st.nze }

/-- The CSR descriptor created by `cusparseCreateCsr (&descr, height, height, nze, dev_ind,
dev_col, dev_val, ...)`. -/
def descr (P : DevJacobiPrecond α) : cusparseSpMatDescr α :=
  { rows := P.height, cols := P.height, nnz := P.nze,
    csrRowOffsets := P.dev_ind, csrColInd := P.dev_col, csrValues := P.dev_val }

end DevJacobiPrecond

end ngla

/-! ## SymbolTable (`src/ngstd/symboltable.hpp`) -/

namespace ngstd

/-- The data members of `class SymbolTable<T>`: the identifiers `names` of the base class
`BaseSymbolTable` and the array `data`. -/
structure SymbolTable (T : Type) where
  names : List String
  data : List T
  deriving DecidableEq, Repr

namespace SymbolTable

variable {T : Type}

/-- Modelled from the spec: `BaseSymbolTable::CheckIndex` is only declared under `src/`; its
documentation reads "Index of symbol name, returns -1 if unused".  The index is that of the
first identifier equal to `name`. -/
def CheckIndex (t : SymbolTable T) (name : String) : Int :=
  if name ∈ t.names then (t.names.indexOf name : Int) else -1

/-- Modelled from the spec: `BaseSymbolTable::Index` is only declared under `src/`; its
documentation reads "Index of symbol name, throws exception if unsued".  `none` stands for
the exception. -/
def Index (t : SymbolTable T) (name : String) : Option Nat :=
  if name ∈ t.names then some (t.names.indexOf name) else none

/-- Modelled from the spec: `BaseSymbolTable::AppendName` is only declared under `src/`; its
documentation reads "append new name (copy)". -/
def AppendName (t : SymbolTable T) (name : String) : SymbolTable T :=
  { t with names := t.names ++ [name] }

/-- Member `Size () const`. -/
def Size (t : SymbolTable T) : Nat := t.data.length

/-- Operator `operator[] (const char * name)`: the element referred to, `none` when `Index`
throws (or the index is outside `data`). -/
def get (t : SymbolTable T) (name : String) : Option T :=
  match t.Index name with
  | some i => t.data[i]?
  | none => none

/-- Member `GetName (int i) const`. -/
def GetName (t : SymbolTable T) (i : Nat) : Option String := t.names[i]?

/-- Member `Set (const char * name, const T & el)`. -/
def Set (t : SymbolTable T) (name : String) (el : T) : SymbolTable T :=
  let i := t.CheckIndex name
  if i ≥ 0 then
    { t with data := t.data.set i.toNat el }
  else
    AppendName { t with data := t.data ++ [el] } name

/-- Member `Used (const char * name) const`. -/
def Used (t : SymbolTable T) (name : String) : Bool :=
  if t.CheckIndex name ≥ 0 then true else false

end SymbolTable

/-- A table with the two entries `a : 1` and `b : 2`. -/
def table_a_b : SymbolTable Int :=
  { names := ["a", "b"], data := [1, 2] }

end ngstd

/-! ## HDivHighOrderSurfaceFESpace (`src/comp/hdivhosurfacefespace.cpp`) -/

namespace ngcomp

/-- The element types of the mesh interface (`ELEMENT_TYPE`). -/
inductive ELEMENT_TYPE where
  | ET_POINT
  | ET_SEGM
  | ET_TRIG
  | ET_QUAD
  | ET_TET
  | ET_PYRAMID
  | ET_PRISM
  | ET_HEX
  deriving DecidableEq, Repr

/-- Modelled from the spec: the mesh interface `MeshAccess` (declared outside `src/`), which
"exposes" the mesh topology the dof tables are built from.  Only what `UpdateDofTables` asks
for is kept: the dimension, the numbers of surface elements, edges, facets and volume
elements, the type and the facets of surface element `i`, the facets of volume element `i`. -/
structure MeshAccess where
  dimension : Nat
  nse : Nat
  nedges : Nat
  nfacets : Nat
  ne : Nat
  bnd_eltype : Nat → ELEMENT_TYPE
  bnd_elfacets : Nat → List Nat
  vol_elfacets : Nat → List Nat

namespace MeshAccess

/-- Modelled from the spec: `GetNSE ()`, the number of surface elements. -/
def GetNSE (ma : MeshAccess) : Nat := ma.nse

/-- Modelled from the spec: `GetNEdges ()`, the number of edges. -/
def GetNEdges (ma : MeshAccess) : Nat := ma.nedges

/-- Modelled from the spec: `GetDimension ()`. -/
def GetDimension (ma : MeshAccess) : Nat := ma.dimension

/-- Modelled from the spec: `GetNFacets ()`. -/
def GetNFacets (ma : MeshAccess) : Nat := ma.nfacets

/-- Modelled from the spec: `GetElType (ElementId (BND, i))`. -/
def GetElType (ma : MeshAccess) (i : Nat) : ELEMENT_TYPE := ma.bnd_eltype i

/-- Modelled from the spec: `GetElFacets (ElementId (BND, i))`. -/
def GetElFacets (ma : MeshAccess) (i : Nat) : List Nat := ma.bnd_elfacets i

/-- Modelled from the spec: `GetElFacets (ei)` for the `i`-th element of `Elements (VOL)`. -/
def GetElFacets_VOL (ma : MeshAccess) (i : Nat) : List Nat := ma.vol_elfacets i

end MeshAccess

/-- The value an `int` (32 bits, two's complement) holds when the mathematical result of an
`int` operation, or the value converted to `int`, is `x`. -/
def int32 (x : Int) : Int := (x + 2 ^ 31) % 2 ^ 32 - 2 ^ 31

/-- The value a `size_t` (64 bits, unsigned) holds when the mathematical result is `x`. -/
def size_t64 (x : Int) : Int := x % 2 ^ 64

/-- The members of `class HDivHighOrderSurfaceFESpace` (and of its base `FESpace`) that
`Update` and `UpdateDofTables` read or write: `order` is an `int`, `ndof` has the type
`size_t` that `GetNDof ()` returns, the two dof tables and `dc_pairs` hold `int`s. -/
structure HDivHighOrderSurfaceFESpace where
  ma : MeshAccess
  order : Int
  ho_div_free : Bool
  highest_order_dc : Bool
  boundary_facet : List Bool
  ndof : Int
  first_facet_dof : List Int
  first_inner_dof : List Int
  dc_pairs : List (Int × Int)

namespace HDivHighOrderSurfaceFESpace

/-- The `int` expression `order*(order-1)/2`: each operation is made in `int`, and `/`
truncates. -/
def half_product (order : Int) : Int :=
  Int.tdiv (int32 (order * int32 (order - 1))) 2

/-- The number `int inci` computed by the `switch` on the element type in
`UpdateDofTables`; for a triangle `order*(order-1)/2+order*(order-1)/2+order-1`, evaluated
from left to right in `int`. -/
def inci_of_type (fes : HDivHighOrderSurfaceFESpace) (i : Nat) : Except String Int :=
  match fes.ma.GetElType i with
  | .ET_TRIG =>
    if !fes.ho_div_free then
      .ok (int32 (int32 (int32 (half_product fes.order + half_product fes.order)
        + fes.order) - 1))
    else
      .ok (half_product fes.order)
  | .ET_QUAD => .error "not implemented yet"
  | _ => .ok 0

/-- The body of the loop `for (size_t i = 0; i < nel; i++)` of `UpdateDofTables`. -/
def element_body (fes : HDivHighOrderSurfaceFESpace) (i : Nat) :
    Except String HDivHighOrderSurfaceFESpace :=
  match fes.inci_of_type i with
  | .error e => .error e
  | .ok inci0 =>
    let inci :=
      if fes.highest_order_dc then
        (fes.ma.GetElFacets i).foldl
          (fun inci f => if !fes.boundary_facet.getD f false then int32 (inci + 1) else inci)
          inci0
      else inci0
    let fes1 := { fes with first_inner_dof := fes.first_inner_dof.set i (int32 fes.ndof) }
    .ok (if inci > 0 then { fes1 with ndof := size_t64 (fes1.ndof + inci) } else fes1)

/-- The loop over `ma->Elements (VOL)` that fills `dc_pairs` when `highest_order_dc` is
set. -/
def dc_pairs_loop (fes : HDivHighOrderSurfaceFESpace) : HDivHighOrderSurfaceFESpace :=
  (List.range fes.ma.ne).foldl (fun fes1 nr =>
    ((fes1.ma.GetElFacets_VOL nr).foldl (fun (acc : HDivHighOrderSurfaceFESpace × Int) f =>
      if !acc.1.boundary_facet.getD f false then
        let di := acc.2
        let pairs1 := acc.1.dc_pairs.set f ((acc.1.dc_pairs.getD f (0, 0)).1,
          (acc.1.dc_pairs.getD f (0, 0)).1)
        let pairs2 := pairs1.set f (di, (pairs1.getD f (0, 0)).2)
        ({ acc.1 with dc_pairs := pairs2 }, int32 (acc.2 + 1))
      else acc) (fes1, fes1.first_inner_dof.getD nr 0)).1) fes

/-- Member `UpdateDofTables ()`. -/
def UpdateDofTables (fes : HDivHighOrderSurfaceFESpace) :
    Except String HDivHighOrderSurfaceFESpace :=
  let nel := fes.ma.GetNSE
  let nfa := fes.ma.GetNEdges
  let dim := fes.ma.GetDimension
  let fes1 := { fes with ndof := size_t64 (nfa : Int) }
  let fes2 := { fes1 with
    first_facet_dof := fes1.first_facet_dof.map (fun _ => int32 fes1.ndof) }
  if dim = 3 then
    let fes3 := (List.range nfa).foldl
      (fun f i => { f with first_facet_dof := f.first_facet_dof.set i (int32 f.ndof) }) fes2
    let fes4 := { fes3 with first_facet_dof := fes3.first_facet_dof.set nfa (int32 fes3.ndof) }
    match (List.range nel).foldlM element_body fes4 with
    | .error e => .error e
    | .ok fes5 =>
      let fes6 := { fes5 with
        first_inner_dof := fes5.first_inner_dof.set nel (int32 fes5.ndof) }
      if fes6.highest_order_dc then
        let fes7 := { fes6 with dc_pairs := List.replicate fes6.ma.GetNFacets (-1, -1) }
        .ok fes7.dc_pairs_loop
      else
        .ok { fes6 with dc_pairs := [] }
  else
    .error "you should not be here - only 2D manifolds supported"

/-- Member `Update (LocalHeap & lh)`: after the base class update the two tables are resized
to `nfa + 1` and `nel + 1` entries (`facet0`, `inner0` are their contents after `SetSize`),
then `UpdateDofTables ()` runs. -/
def Update (fes : HDivHighOrderSurfaceFESpace)
    (facet0 : ngla.Buffer Int (fes.ma.GetNEdges + 1))
    (inner0 : ngla.Buffer Int (fes.ma.GetNSE + 1)) :
    Except String HDivHighOrderSurfaceFESpace :=
  UpdateDofTables { fes with first_facet_dof := facet0.val, first_inner_dof := inner0.val }

end HDivHighOrderSurfaceFESpace

/-- A surface mesh of dimension 3 with 5 edges and 2 triangles. -/
def mesh_two_trigs : MeshAccess :=
  { dimension := 3, nse := 2, nedges := 5, nfacets := 5, ne := 0,
    bnd_eltype := fun _ => .ET_TRIG,
    bnd_elfacets := fun i => if i = 0 then [0, 1, 2] else [2, 3, 4],
    vol_elfacets := fun _ => [] }

/-- The space of order 2 on the mesh of two triangles, `hodivfree` and `highest_order_dc`
off, tables not yet built. -/
def fes_order2 : HDivHighOrderSurfaceFESpace :=
  { ma := mesh_two_trigs, order := 2, ho_div_free := false, highest_order_dc := false,
    boundary_facet := [true, true, false, true, true], ndof := 0,
    first_facet_dof := [], first_inner_dof := [], dc_pairs := [] }

/-- The space of order 46341 on the mesh of two triangles, `hodivfree` and
`highest_order_dc` off, tables not yet built. -/
def fes_order46341 : HDivHighOrderSurfaceFESpace :=
  { ma := mesh_two_trigs, order := 46341, ho_div_free := false, highest_order_dc := false,
    boundary_facet := [true, true, false, true, true], ndof := 0,
    first_facet_dof := [], first_inner_dof := [], dc_pairs := [] }

end ngcomp

namespace ngla

/-! ## Concrete inputs -/

/-- A device-fresh vector of two elements: host `[0, 0]` (stale), device `[2, 5]`. -/
def vec_dev_2_5 : UnifiedVector Int :=
  { size := 2, host_data := [0, 0], dev_data := [2, 5],
    host_uptodate := false, dev_uptodate := true }

/-- A vector as the constructor leaves it: both copies stale, host `[7, 8]`, device
`[1, 2]` (whatever the allocations held). -/
def vec_undefined : UnifiedVector Int :=
  { size := 2, host_data := [7, 8], dev_data := [1, 2],
    host_uptodate := false, dev_uptodate := false }

/-- A host-fresh vector `[1, 1, 1]` whose device buffer holds other values. -/
def vec_host_1_1_1 : UnifiedVector Int :=
  { size := 3, host_data := [1, 1, 1], dev_data := [9, 9, 9],
    host_uptodate := true, dev_uptodate := false }

/-- A host-fresh vector `[3, 4]` with a stale device buffer. -/
def vec_host_3_4 : UnifiedVector Int :=
  { size := 2, host_data := [3, 4], dev_data := [0, 0],
    host_uptodate := true, dev_uptodate := false }

/-- A vector of three elements as the constructor leaves it (both copies stale). -/
def vec_undefined_3 : UnifiedVector Int :=
  { size := 3, host_data := [7, 8, 9], dev_data := [5, -3, 11],
    host_uptodate := false, dev_uptodate := false }

/-- The matrix with rows `[[2,0,0],[0,3,1],[1,0,4]]` in compressed-row format. -/
def smat_3x3 : SparseMatrix Int :=
  { height := 3, width := 3, nze := 5, firsti := [0, 1, 3, 5],
    colnr := [0, 1, 2, 0, 2], data := [2, 3, 1, 1, 4] }

/-- The row-major matrix `[[1,2,3],[4,5,6]]`. -/
def mat_2x3 : Matrix Int :=
  { height := 2, width := 3, data := [1, 2, 3, 4, 5, 6] }

/-- A host-fresh vector `[1, 0, 1]` with a stale device buffer. -/
def vec_host_1_0_1 : UnifiedVector Int :=
  { size := 3, host_data := [1, 0, 1], dev_data := [9, 9, 9],
    host_uptodate := true, dev_uptodate := false }

/-- A dense device matrix of shape 2 x 3. -/
def dmat_2x3 : DevDMatrix Int :=
  { height := 2, width := 3, dev_data := [1, 2, 3, 4, 5, 6] }

/-- A dense device matrix of shape 3 x 3. -/
def dmat_3x3 : DevDMatrix Int :=
  { height := 3, width := 3, dev_data := [1, 2, 3, 4, 5, 6, 7, 8, 9] }

/-- A dense device matrix of shape 3 x 2. -/
def dmat_3x2 : DevDMatrix Int :=
  { height := 3, width := 2, dev_data := [10, 20, 30, 40, 50, 60] }

/-- A device-fresh vector of three elements: host `[0, 0, 0]` (stale), device
`[10, 20, 30]`. -/
def vec_dev_10_20_30 : UnifiedVector Int :=
  { size := 3, host_data := [0, 0, 0], dev_data := [10, 20, 30],
    host_uptodate := false, dev_uptodate := true }

/-- A CSR descriptor with no rows, as one possible value of an uninitialised descriptor. -/
def descr_empty : cusparseSpMatDescr Int :=
  { rows := 0, cols := 0, nnz := 0, csrRowOffsets := [0], csrColInd := [], csrValues := [] }

section lemmas

variable {α : Type}

theorem cudaMemcpy_full (dst src : List α) (n : Nat) (hd : dst.length = n)
    (hs : src.length = n) : cudaMemcpy dst src n = src := by
  subst hs
  simp [cudaMemcpy, List.drop_of_length_le (le_of_eq hd)]

theorem FlatVector_assign_full (dst src : List α) (n : Nat) (hd : dst.length = n)
    (hs : src.length = n) : FlatVector_assign n dst src = src :=
  cudaMemcpy_full dst src n hd hs

theorem cublasDscal_full [Mul α] (x : List α) (n : Nat) (a : α) (hx : x.length = n) :
    cublasDscal n a x = x.map (fun t => a * t) := by
  simp [cublasDscal, ← hx]

theorem cublasDaxpy_full [Mul α] [Add α] (x y : List α) (n : Nat) (a : α)
    (hx : x.length = n) (hy : y.length = n) :
    cublasDaxpy n a x y = List.zipWith (fun xi yi => a * xi + yi) x y := by
  subst hx
  simp [cublasDaxpy, List.take_of_length_le (le_of_eq hy), List.drop_of_length_le (le_of_eq hy)]

@[simp] theorem UpdateHost_host_uptodate (v : UnifiedVector α) :
    v.UpdateHost.host_uptodate = true := by
  unfold UnifiedVector.UpdateHost; split <;> simp_all

@[simp] theorem UpdateHost_dev_uptodate (v : UnifiedVector α) :
    v.UpdateHost.dev_uptodate = v.dev_uptodate := by
  unfold UnifiedVector.UpdateHost; split <;> [rfl; (split <;> rfl)]

@[simp] theorem UpdateHost_size (v : UnifiedVector α) : v.UpdateHost.size = v.size := by
  unfold UnifiedVector.UpdateHost; split <;> [rfl; (split <;> rfl)]

@[simp] theorem UpdateHost_dev_data (v : UnifiedVector α) :
    v.UpdateHost.dev_data = v.dev_data := by
  unfold UnifiedVector.UpdateHost; split <;> [rfl; (split <;> rfl)]

@[simp] theorem UpdateDevice_dev_uptodate (v : UnifiedVector α) :
    v.UpdateDevice.dev_uptodate = true := by
  unfold UnifiedVector.UpdateDevice; split <;> simp_all

@[simp] theorem UpdateDevice_host_uptodate (v : UnifiedVector α) :
    v.UpdateDevice.host_uptodate = v.host_uptodate := by
  unfold UnifiedVector.UpdateDevice; split <;> [rfl; (split <;> rfl)]

@[simp] theorem UpdateDevice_size (v : UnifiedVector α) : v.UpdateDevice.size = v.size := by
  unfold UnifiedVector.UpdateDevice; split <;> [rfl; (split <;> rfl)]

@[simp] theorem UpdateDevice_host_data (v : UnifiedVector α) :
    v.UpdateDevice.host_data = v.host_data := by
  unfold UnifiedVector.UpdateDevice; split <;> [rfl; (split <;> rfl)]

theorem read_length (v : UnifiedVector α) (hwf : v.WF) : v.read.length = v.size := by
  obtain ⟨h1, h2⟩ := hwf
  unfold UnifiedVector.read UnifiedVector.UpdateHost
  split
  · exact h1
  · split
    · simp [cudaMemcpy_full _ _ _ h1 h2, h2]
    · exact h1

theorem read_of_deviceOwned (v : UnifiedVector α) (h : v.deviceOwned)
    (h1 : v.host_data.length = v.size) (h2 : v.dev_data.length = v.size) :
    v.read = v.dev_data := by
  obtain ⟨hh, hd⟩ := h
  simp [UnifiedVector.read, UnifiedVector.UpdateHost, hh, hd, cudaMemcpy_full _ _ _ h1 h2]

theorem UpdateDevice_dev_data_eq_read (v : UnifiedVector α) (hwf : v.WF) (hc : v.Coherent)
    (hf : v.hasFresh) : v.UpdateDevice.dev_data = v.read := by
  obtain ⟨h1, h2⟩ := hwf
  unfold UnifiedVector.Coherent at hc
  unfold UnifiedVector.hasFresh at hf
  cases hh : v.host_uptodate <;> cases hd : v.dev_uptodate <;>
    simp_all [UnifiedVector.read, UnifiedVector.UpdateHost, UnifiedVector.UpdateDevice,
      cudaMemcpy_full _ _ _ h1 h2, cudaMemcpy_full _ _ _ h2 h1]

theorem UpdateDevice_read (v : UnifiedVector α) (hwf : v.WF) (hc : v.Coherent)
    (hf : v.hasFresh) : v.UpdateDevice.read = v.read := by
  obtain ⟨h1, h2⟩ := hwf
  unfold UnifiedVector.Coherent at hc
  unfold UnifiedVector.hasFresh at hf
  cases hh : v.host_uptodate <;> cases hd : v.dev_uptodate <;>
    simp_all [UnifiedVector.read, UnifiedVector.UpdateHost, UnifiedVector.UpdateDevice,
      cudaMemcpy_full _ _ _ h1 h2, cudaMemcpy_full _ _ _ h2 h1]

theorem toInt32_of_lt (n : Nat) (h : n < 2 ^ 31) : toInt32 n = (n : Int) := by
  unfold toInt32
  omega

theorem SparseMatrix.First_le_nze (mat : SparseMatrix α) (hA : mat.Valid) :
    ∀ k i, i + k = mat.height → mat.First i ≤ mat.nze := by
  obtain ⟨-, -, hlast, hmono, -⟩ := hA
  intro k
  induction k with
  | zero => intro i hi; simp only [Nat.add_zero] at hi; rw [hi, hlast]
  | succ k ih =>
    intro i hi
    exact le_trans (hmono i (by omega)) (ih (i + 1) (by omega))

theorem map_range'_eq_zipWith [Mul α] [Zero α] (c : List Nat) (d x : List α) :
    ∀ (m s : Nat), s + m ≤ c.length → s + m ≤ d.length →
      (List.range' s m).map (fun k => d.getD k 0 * x.getD (c.getD k 0) 0)
        = List.zipWith (fun j a => a * x.getD j 0) ((c.drop s).take m) ((d.drop s).take m) := by
  intro m
  induction m with
  | zero => intro s _ _; simp
  | succ m ih =>
    intro s hc hd
    have hsc : s < c.length := by omega
    have hsd : s < d.length := by omega
    rw [List.drop_eq_getElem_cons hsc, List.drop_eq_getElem_cons hsd]
    simp only [List.range'_succ, List.map_cons, List.take_succ_cons, List.zipWith_cons_cons]
    rw [ih (s + 1) (by omega) (by omega), List.getD_eq_getElem _ _ hsc,
      List.getD_eq_getElem _ _ hsd]

theorem DevSparseMatrix.rowDot_eq_rowSum [Mul α] [Add α] [Zero α] (mat : SparseMatrix α)
    (hA : mat.Valid) (x : List α) (i : Nat) (hi : i < mat.height) :
    (DevSparseMatrix.ofSparseMatrix mat).descr.rowDot x i = mat.rowSum x i := by
  have h1 := SparseMatrix.First_le_nze mat hA (mat.height - i) i (by omega)
  have h2 := SparseMatrix.First_le_nze mat hA (mat.height - (i + 1)) (i + 1) (by omega)
  obtain ⟨-, h0, -, hmono, hcl, hdl, -, hnz⟩ := hA
  have hmi := hmono i hi
  have e1 : ((List.range (mat.height + 1)).map (fun i => toInt32 (mat.First i))).getD i 0
      = (mat.First i : Int) := by
    rw [List.getD_eq_getElem _ _ (by simp; omega)]
    simp [toInt32_of_lt _ (lt_of_le_of_lt h1 hnz)]
  have e2 : ((List.range (mat.height + 1)).map (fun i => toInt32 (mat.First i))).getD (i + 1) 0
      = (mat.First (i + 1) : Int) := by
    rw [List.getD_eq_getElem _ _ (by simp; omega)]
    simp [toInt32_of_lt _ (lt_of_le_of_lt h2 hnz)]
  have hcol : (mat.colnr.drop (mat.First 0)).take mat.nze = mat.colnr := by
    rw [h0, List.drop_zero, List.take_of_length_le (le_of_eq hcl)]
  have hval : (mat.data.drop (mat.First 0)).take mat.nze = mat.data := by
    rw [h0, List.drop_zero, List.take_of_length_le (le_of_eq hdl)]
  have htake : ((List.range (mat.height + 1)).map (fun i => toInt32 (mat.First i))).take
      (mat.height + 1) = (List.range (mat.height + 1)).map (fun i => toInt32 (mat.First i)) :=
    List.take_of_length_le (by simp)
  simp only [cusparseSpMatDescr.rowDot, DevSparseMatrix.descr, DevSparseMatrix.ofSparseMatrix,
    SparseMatrix.Height, SparseMatrix.NZE, SparseMatrix.rowSum, SparseMatrix.GetRowIndices,
    SparseMatrix.GetRowValues, hcol, hval, htake, e1, e2, Int.toNat_ofNat]
  rw [map_range'_eq_zipWith mat.colnr mat.data x _ _ (by omega) (by omega)]

theorem UpdateDevice_dev_data_length (v : UnifiedVector α) (hwf : v.WF) :
    v.UpdateDevice.dev_data.length = v.size := by
  obtain ⟨h1, h2⟩ := hwf
  unfold UnifiedVector.UpdateDevice
  split
  · exact h2
  · split
    · simp [cudaMemcpy_full _ _ _ h2 h1, h1]
    · exact h2

theorem sum_map_range_eq_finset_sum [AddCommMonoid α] (f : Nat → α) (n : Nat) :
    ((List.range n).map f).sum = Finset.sum (Finset.range n) f := by
  induction n with
  | zero => simp
  | succ n ih => rw [List.range_succ, List.map_append, List.sum_append, ih,
      Finset.sum_range_succ]; simp

theorem index_const_eq_read (v : UnifiedVector α) (i : Nat) :
    (v.index_const i).2 = v.read[i]? := rfl

theorem UpdateHost_of_fresh (v : UnifiedVector α) (h : v.host_uptodate = true) :
    v.UpdateHost = v := by
  simp [UnifiedVector.UpdateHost, h]

theorem UpdateDevice_of_fresh (v : UnifiedVector α) (h : v.dev_uptodate = true) :
    v.UpdateDevice = v := by
  simp [UnifiedVector.UpdateDevice, h]

end lemmas

/-! ## UnifiedVector: scalar assignment -/

/-- C1, the code at a failing input: on the device-fresh vector with device buffer
`[2, 5]`, `operator= (3.0)` followed by host reads of both elements returns `6` and `15`
(the old values scaled by `3`), not `3`: `cublasDscal` multiplies the device buffer by the
scalar instead of filling it. -/
theorem C1_assign_double_scales :
    ((vec_dev_2_5.assign_double 3).index_const 0).2 = some 6 ∧
    ((vec_dev_2_5.assign_double 3).index_const 1).2 = some 15 ∧
    ((vec_dev_2_5.assign_double 3).index_const 0).2 ≠ some 3 := by
  decide

/-! ## UnifiedVector: synchronisation -/

/-- C6, counterexample: on the vector with both copies stale and host buffer `[7, 8]`,
`UpdateHost ()` writes nothing to the console, copies nothing and marks the host copy fresh;
the host read of element `0` returns the stale `7`. -/
theorem C6_undefined_state_is_silent :
    vec_undefined.UpdateHost_cout = [] ∧
    vec_undefined.UpdateHost = { vec_undefined with host_uptodate := true } ∧
    vec_undefined.index_const 0 = ({ vec_undefined with host_uptodate := true }, some 7) := by
  decide

/-- C6 as amended: when neither copy is fresh, `UpdateHost ()` copies nothing, prints nothing
and only sets `host_uptodate`; a host read through the const `operator[]` returns the element
already in the host buffer; `UpdateDevice ()` copies nothing, only sets `dev_uptodate`, and
prints the same line `Host2Device copy!` that it prints when the host copy is fresh. -/
theorem C6_update_in_undefined_state {α : Type} (v : UnifiedVector α)
    (hh : v.host_uptodate = false) (hd : v.dev_uptodate = false) :
    v.UpdateHost = { v with host_uptodate := true } ∧
    v.UpdateHost_cout = [] ∧
    (∀ i, v.index_const i = ({ v with host_uptodate := true }, v.host_data[i]?)) ∧
    v.UpdateDevice = { v with dev_uptodate := true } ∧
    v.UpdateDevice_cout = ["Host2Device copy!"] ∧
    ({ v with host_uptodate := true } : UnifiedVector α).UpdateDevice_cout
      = v.UpdateDevice_cout := by
  simp [UnifiedVector.UpdateHost, UnifiedVector.UpdateDevice, UnifiedVector.UpdateHost_cout,
    UnifiedVector.UpdateDevice_cout, UnifiedVector.index_const, hh, hd]

/-- C6 as amended, at the both-stale vector with host buffer `[7, 8]`. -/
theorem C6_update_in_undefined_state_witness :
    vec_undefined.UpdateHost = { vec_undefined with host_uptodate := true } ∧
    vec_undefined.UpdateHost_cout = [] ∧
    (∀ i, vec_undefined.index_const i
      = ({ vec_undefined with host_uptodate := true }, vec_undefined.host_data[i]?)) ∧
    vec_undefined.UpdateDevice = { vec_undefined with dev_uptodate := true } ∧
    vec_undefined.UpdateDevice_cout = ["Host2Device copy!"] ∧
    ({ vec_undefined with host_uptodate := true } : UnifiedVector Int).UpdateDevice_cout
      = vec_undefined.UpdateDevice_cout :=
  C6_update_in_undefined_state vec_undefined (by decide) (by decide)

/-- C9: `UpdateHost ()` twice gives the same state (both buffers, both flags) as once, and so
does `UpdateDevice ()`; when the target copy is already fresh the call changes nothing. -/
theorem C9_update_idempotent {α : Type} (s : UnifiedVector α) :
    s.UpdateHost.UpdateHost = s.UpdateHost ∧
    s.UpdateDevice.UpdateDevice = s.UpdateDevice ∧
    (s.host_uptodate = true → s.UpdateHost = s) ∧
    (s.dev_uptodate = true → s.UpdateDevice = s) := by
  cases s with
  | mk n h d hu du =>
    cases hu <;> cases du <;> simp [UnifiedVector.UpdateHost, UnifiedVector.UpdateDevice]

/-- C9 at the device-fresh vector `[2, 5]`, for which `UpdateDevice ()` is the identity. -/
theorem C9_update_idempotent_witness :
    vec_dev_2_5.UpdateHost.UpdateHost = vec_dev_2_5.UpdateHost ∧
    vec_dev_2_5.UpdateDevice.UpdateDevice = vec_dev_2_5.UpdateDevice ∧
    vec_dev_2_5.UpdateDevice = vec_dev_2_5 :=
  ⟨(C9_update_idempotent vec_dev_2_5).1, (C9_update_idempotent vec_dev_2_5).2.1,
    (C9_update_idempotent vec_dev_2_5).2.2.2 (by decide)⟩

/-! ## UnifiedVector: construction from a foreign vector -/

/-- C5, the code at the failing input: for `a` of shape 2 x 3 holding `[1, .., 6]` and `b` of
shape 3 x 2 holding `[10, .., 60]`, `a.Add (b)` does not fail: it returns normally with `a`
overwritten by the elementwise sum of the two buffers, whereas the sibling `operator=` of the
same class rejects the same pair of shapes. -/
theorem C5_Add_ignores_shape :
    dmat_2x3.Add (.devD dmat_3x2)
      = .ok { height := 2, width := 3, dev_data := [11, 22, 33, 44, 55, 66] } ∧
    dmat_2x3.assign dmat_3x2 = .error "sizes of DevDMatrix do not fit during assign" :=
  ⟨rfl, rfl⟩

/-! ## UnifiedVector: freshness flags -/

/-- C7: after each mutating operation exactly the written copy is marked fresh.  Writes on
the device (`operator= (double)`, `operator=` from a device-fresh `UnifiedVector`, `Scale`,
`SetScalar`, `Add`/`Set` with a `UnifiedVector`, and the output `y` of
`DevSparseMatrix::Mult`/`MultAdd` and `DevDMatrix::MultAdd`/`Mult`) leave
`host_uptodate = false`, `dev_uptodate = true`; writes on the host (`operator=` from a
`UnifiedVector` that is only host-fresh or from a foreign vector, `Add`/`Set` with a foreign
vector, the non-const `operator[]`, `FVDouble`) leave `host_uptodate = true`,
`dev_uptodate = false`.  In no case are both flags true. -/
theorem C7_mutation_marks_other_stale {α : Type} [Mul α] [Add α] [Zero α] [One α]
    (v x src : UnifiedVector α) (d : α) (w : List α) (i : Nat)
    (A : DevSparseMatrix α) (matA : cusparseSpMatDescr α) (D : DevDMatrix α)
    (hsrc : src.hasFresh) :
    (v.assign_double d).deviceOwned ∧
    ((v.assign (.unified src)).1.host_uptodate = !src.dev_uptodate ∧
      (v.assign (.unified src)).1.dev_uptodate = src.dev_uptodate) ∧
    (v.assign (.foreign w)).1.hostOwned ∧
    (v.Scale d).deviceOwned ∧
    (v.SetScalar d).deviceOwned ∧
    (v.Add d (.unified src)).1.deviceOwned ∧
    (v.Add d (.foreign w)).1.hostOwned ∧
    (v.Set d (.unified src)).1.deviceOwned ∧
    (v.Set d (.foreign w)).1.hostOwned ∧
    (v.index i).1.hostOwned ∧
    (v.index_store i d).hostOwned ∧
    v.FVDouble.1.hostOwned ∧
    (∃ x' y', A.Mult (.unified x) (.unified v) = .ok (x', y') ∧ y'.deviceOwned) ∧
    (∃ x' y', A.MultAdd matA d (.unified x) (.unified v) = .ok (x', y') ∧ y'.deviceOwned) ∧
    (∃ x' y', D.MultAdd d (.unified x) (.unified v) = .ok (x', y') ∧ y'.deviceOwned) ∧
    (∃ x' y', D.Mult (.unified x) (.unified v) = .ok (x', y') ∧ y'.deviceOwned) := by
  have hs : src.dev_uptodate = false → src.host_uptodate = true := by
    intro h; rcases hsrc with h1 | h1
    · exact h1
    · rw [h] at h1; cases h1
  refine ⟨?_, ?_, ?_, ?_, ?_, ?_, ?_, ?_, ?_, ?_, ?_, ?_, ?_, ?_, ?_, ?_⟩
  · simp [UnifiedVector.assign_double, UnifiedVector.deviceOwned]
  · cases hdev : src.dev_uptodate
    · simp [UnifiedVector.assign, hdev, hs hdev]
    · simp [UnifiedVector.assign, hdev]
  · simp [UnifiedVector.assign, UnifiedVector.hostOwned]
  · simp [UnifiedVector.Scale, UnifiedVector.deviceOwned]
  · simp [UnifiedVector.SetScalar, UnifiedVector.assign_double, UnifiedVector.deviceOwned]
  · simp [UnifiedVector.Add, UnifiedVector.deviceOwned]
  · simp [UnifiedVector.Add, UnifiedVector.FVDouble, UnifiedVector.hostOwned]
  · simp [UnifiedVector.Set, UnifiedVector.Add, UnifiedVector.deviceOwned]
  · simp [UnifiedVector.Set, UnifiedVector.Add, UnifiedVector.FVDouble,
      UnifiedVector.hostOwned]
  · simp [UnifiedVector.index, UnifiedVector.hostOwned]
  · simp [UnifiedVector.index_store, UnifiedVector.index, UnifiedVector.hostOwned]
  · simp [UnifiedVector.FVDouble, UnifiedVector.hostOwned]
  · exact ⟨_, _, rfl, by simp [UnifiedVector.deviceOwned]⟩
  · exact ⟨_, _, rfl, by simp [UnifiedVector.deviceOwned]⟩
  · exact ⟨_, _, rfl, by simp [UnifiedVector.deviceOwned]⟩
  · exact ⟨_, _, rfl, by simp [UnifiedVector.deviceOwned]⟩

/-- C7 at a freshly constructed vector of three elements, with a host-fresh source: the
assignment from the source leaves it host-fresh only, `Scale` and `DevSparseMatrix::Mult`
(as output) leave it device-fresh only. -/
theorem C7_mutation_marks_other_stale_witness :
    vec_host_1_0_1.hasFresh ∧
    ((vec_undefined_3.assign (.unified vec_host_1_0_1)).1.host_uptodate = true ∧
      (vec_undefined_3.assign (.unified vec_host_1_0_1)).1.dev_uptodate = false) ∧
    (vec_undefined_3.Scale 2).deviceOwned ∧
    (∃ x' y', (DevSparseMatrix.ofSparseMatrix smat_3x3).Mult (.unified vec_host_1_1_1)
        (.unified vec_undefined_3) = .ok (x', y') ∧ y'.deviceOwned) :=
  have h := C7_mutation_marks_other_stale vec_undefined_3 vec_host_1_1_1 vec_host_1_0_1 2
    [1, 2, 3] 0 (DevSparseMatrix.ofSparseMatrix smat_3x3)
    (DevSparseMatrix.ofSparseMatrix smat_3x3).descr dmat_3x3 (by decide)
  ⟨by decide, h.2.1, h.2.2.2.1, h.2.2.2.2.2.2.2.2.2.2.2.2.1⟩

/-- C8: "at least one copy is fresh" is preserved by every operation, for the vector the
operation is called on (`v`) and for a vector passed as argument (`b`; a foreign vector counts
as fresh): `operator= (double)`, `operator= (const BaseVector&)`, both `operator[]`, `Scale`,
`SetScalar`, `Set`, `Add`, `InnerProduct`, `UpdateHost`, `UpdateDevice`, `FVDouble`, `Memory`,
and the operands `x`, `y` of `DevSparseMatrix::Mult`/`MultAdd` and
`DevDMatrix::Mult`/`MultAdd`.  A call that throws returns no new state: it throws before any
flag is touched. -/
theorem C8_hasFresh_preserved {α : Type} [Mul α] [Add α] [Zero α] [One α]
    (v : UnifiedVector α) (b : BaseVector α) (d : α) (i : Nat) (conjugate : Bool)
    (A : DevSparseMatrix α) (matA : cusparseSpMatDescr α) (D : DevDMatrix α)
    (hv : v.hasFresh) (hb : b.hasFresh) :
    (v.assign_double d).hasFresh ∧
    ((v.assign b).1.hasFresh ∧ (v.assign b).2.hasFresh) ∧
    (v.index_const i).1.hasFresh ∧
    (v.index i).1.hasFresh ∧
    (v.index_store i d).hasFresh ∧
    (v.Scale d).hasFresh ∧
    (v.SetScalar d).hasFresh ∧
    ((v.Set d b).1.hasFresh ∧ (v.Set d b).2.hasFresh) ∧
    ((v.Add d b).1.hasFresh ∧ (v.Add d b).2.hasFresh) ∧
    (∀ r u' b', v.InnerProduct b conjugate = .ok (r, u', b') → u'.hasFresh ∧ b'.hasFresh) ∧
    v.UpdateHost.hasFresh ∧
    v.UpdateDevice.hasFresh ∧
    v.FVDouble.1.hasFresh ∧
    v.Memory.hasFresh ∧
    (∀ x' y', A.Mult b (.unified v) = .ok (x', y') → x'.hasFresh ∧ y'.hasFresh) ∧
    (∀ x' y', A.Mult (.unified v) b = .ok (x', y') → x'.hasFresh ∧ y'.hasFresh) ∧
    (∀ x' y', A.MultAdd matA d b (.unified v) = .ok (x', y') →
      x'.hasFresh ∧ y'.hasFresh) ∧
    (∀ x' y', A.MultAdd matA d (.unified v) b = .ok (x', y') →
      x'.hasFresh ∧ y'.hasFresh) ∧
    (∀ x' y', D.MultAdd d b (.unified v) = .ok (x', y') → x'.hasFresh ∧ y'.hasFresh) ∧
    (∀ x' y', D.MultAdd d (.unified v) b = .ok (x', y') → x'.hasFresh ∧ y'.hasFresh) ∧
    (∀ x' y', D.Mult b (.unified v) = .ok (x', y') → x'.hasFresh ∧ y'.hasFresh) ∧
    (∀ x' y', D.Mult (.unified v) b = .ok (x', y') → x'.hasFresh ∧ y'.hasFresh) := by
  have hv' : v.host_uptodate = true ∨ v.dev_uptodate = true := hv
  refine ⟨?_, ⟨?_, ?_⟩, ?_, ?_, ?_, ?_, ?_, ⟨?_, ?_⟩, ⟨?_, ?_⟩, ?_, ?_, ?_, ?_, ?_,
    ?_, ?_, ?_, ?_, ?_, ?_, ?_, ?_⟩
  · simp [UnifiedVector.assign_double, UnifiedVector.hasFresh]
  · cases b with
    | unified u =>
      cases h1 : u.dev_uptodate <;> cases h2 : u.host_uptodate <;>
        simp [UnifiedVector.assign, UnifiedVector.hasFresh, UnifiedVector.FVDouble, h1, h2, hv']
    | foreign w => simp [UnifiedVector.assign, UnifiedVector.hasFresh]
  · cases b with
    | unified u =>
      have hu : u.host_uptodate = true ∨ u.dev_uptodate = true := hb
      cases h1 : u.dev_uptodate <;> cases h2 : u.host_uptodate <;>
        simp_all [UnifiedVector.assign, UnifiedVector.hasFresh, UnifiedVector.FVDouble,
          BaseVector.hasFresh]
    | foreign w => simp [UnifiedVector.assign, BaseVector.hasFresh]
  · simp [UnifiedVector.index_const, UnifiedVector.hasFresh]
  · simp [UnifiedVector.index, UnifiedVector.hasFresh]
  · simp [UnifiedVector.index_store, UnifiedVector.index, UnifiedVector.hasFresh]
  · simp [UnifiedVector.Scale, UnifiedVector.hasFresh]
  · simp [UnifiedVector.SetScalar, UnifiedVector.assign_double, UnifiedVector.hasFresh]
  · cases b <;>
      simp [UnifiedVector.Set, UnifiedVector.Add, UnifiedVector.FVDouble,
        UnifiedVector.hasFresh]
  · cases b <;>
      simp [UnifiedVector.Set, UnifiedVector.Add, BaseVector.hasFresh,
        UnifiedVector.hasFresh]
  · cases b <;>
      simp [UnifiedVector.Add, UnifiedVector.FVDouble, UnifiedVector.hasFresh]
  · cases b <;>
      simp [UnifiedVector.Add, BaseVector.hasFresh, UnifiedVector.hasFresh]
  · intro r u' b' h
    cases conjugate
    · cases b with
      | unified u =>
        simp only [UnifiedVector.InnerProduct, Bool.false_eq_true, if_false, Except.ok.injEq,
          Prod.mk.injEq] at h
        obtain ⟨-, rfl, rfl⟩ := h
        simp [UnifiedVector.hasFresh, BaseVector.hasFresh]
      | foreign w =>
        simp only [UnifiedVector.InnerProduct, Bool.false_eq_true, if_false, Except.ok.injEq,
          Prod.mk.injEq] at h
        obtain ⟨-, rfl, rfl⟩ := h
        simp [UnifiedVector.hasFresh, BaseVector.hasFresh, UnifiedVector.FVDouble]
    · simp [UnifiedVector.InnerProduct] at h
  · simp [UnifiedVector.hasFresh]
  · simp [UnifiedVector.hasFresh]
  · simp [UnifiedVector.FVDouble, UnifiedVector.hasFresh]
  · simp [UnifiedVector.Memory, UnifiedVector.hasFresh]
  all_goals
    intro x' y' h
    cases b with
    | unified u =>
      simp only [DevSparseMatrix.Mult, DevSparseMatrix.MultAdd, DevDMatrix.Mult,
        DevDMatrix.MultAdd, Except.ok.injEq, Prod.mk.injEq] at h
      obtain ⟨rfl, rfl⟩ := h
      simp [UnifiedVector.hasFresh]
    | foreign w =>
      simp [DevSparseMatrix.Mult, DevSparseMatrix.MultAdd, DevDMatrix.Mult,
        DevDMatrix.MultAdd] at h

/-- C8 at the host-fresh vector `[1, 0, 1]` with the host-fresh argument `[1, 1, 1]`: after
`operator= (double)`, `Add` and `UpdateDevice` each vector still has a fresh copy. -/
theorem C8_hasFresh_preserved_witness :
    vec_host_1_0_1.hasFresh ∧ (BaseVector.unified vec_host_1_1_1).hasFresh ∧
    (vec_host_1_0_1.assign_double 2).hasFresh ∧
    ((vec_host_1_0_1.Add 2 (.unified vec_host_1_1_1)).1.hasFresh ∧
      (vec_host_1_0_1.Add 2 (.unified vec_host_1_1_1)).2.hasFresh) ∧
    vec_host_1_0_1.UpdateDevice.hasFresh :=
  have hb : (BaseVector.unified vec_host_1_1_1).hasFresh :=
    show vec_host_1_1_1.hasFresh by decide
  have h := C8_hasFresh_preserved vec_host_1_0_1 (.unified vec_host_1_1_1) 2 0 false
    (DevSparseMatrix.ofSparseMatrix smat_3x3) (DevSparseMatrix.ofSparseMatrix smat_3x3).descr
    dmat_3x3 (by decide) hb
  ⟨by decide, hb, h.1, h.2.2.2.2.2.2.2.2.1, h.2.2.2.2.2.2.2.2.2.2.2.1⟩

/-! ## UnifiedVector: scaled addition -/

/-- C2 as amended: for `UnifiedVector`s `u`, `v` of equal length, each with a fresh copy and
with equal host and device buffers whenever both of its copies are marked fresh,
`u.Add (s, v)` leaves `u` such that a host
read of every element gives `u0[i] + s * v0[i]`, with `u0`, `v0` the values host reads
returned before the call; the values read from `v` are unchanged. -/
theorem C2_Add_unified {α : Type} [Semiring α] (u v : UnifiedVector α) (s : α)
    (hu : u.WF) (hv : v.WF) (hsz : u.size = v.size)
    (hfu : u.hasFresh) (hfv : v.hasFresh) (hcu : u.Coherent) (hcv : v.Coherent) :
    ∃ u' v', u.Add s (.unified v) = (u', .unified v') ∧
      u'.read = List.zipWith (fun a b => a + s * b) u.read v.read ∧
      v'.read = v.read ∧
      ∀ i, i < u.size → ∃ a b, (u.index_const i).2 = some a ∧ (v.index_const i).2 = some b ∧
        (u'.index_const i).2 = some (a + s * b) ∧ (v'.index_const i).2 = some b := by
  have hlu := read_length u hu
  have hlv := read_length v hv
  have hdu := UpdateDevice_dev_data_eq_read u hu hcu hfu
  have hdv := UpdateDevice_dev_data_eq_read v hv hcv hfv
  have hrv := UpdateDevice_read v hv hcv hfv
  have hax : cublasDaxpy u.UpdateDevice.size s v.UpdateDevice.dev_data
      u.UpdateDevice.dev_data = List.zipWith (fun a b => a + s * b) u.read v.read := by
    rw [hdu, hdv, UpdateDevice_size,
      cublasDaxpy_full v.read u.read u.size s (hlv.trans hsz.symm) hlu, List.zipWith_comm]
    congr 1
    funext a b
    exact add_comm _ _
  have hur : (u.Add s (.unified v)).1.read
      = List.zipWith (fun a b => a + s * b) u.read v.read := by
    rw [read_of_deviceOwned]
    · simp only [UnifiedVector.Add]; exact hax
    · simp [UnifiedVector.Add, UnifiedVector.deviceOwned]
    · simp only [UnifiedVector.Add, UpdateDevice_host_data, UpdateDevice_size]; exact hu.1
    · simp only [UnifiedVector.Add]
      rw [hax]; simp [hlu, hlv, hsz]
  refine ⟨(u.Add s (.unified v)).1, v.UpdateDevice, rfl, hur, hrv, ?_⟩
  intro i hi
  have hiu : i < u.read.length := by rw [hlu]; exact hi
  have hiv : i < v.read.length := by rw [hlv, ← hsz]; exact hi
  refine ⟨u.read[i], v.read[i], ?_, ?_, ?_, ?_⟩
  · rw [index_const_eq_read, List.getElem?_eq_getElem hiu]
  · rw [index_const_eq_read, List.getElem?_eq_getElem hiv]
  · rw [index_const_eq_read, hur, List.getElem?_zipWith, List.getElem?_eq_getElem hiu,
      List.getElem?_eq_getElem hiv]
  · rw [index_const_eq_read, hrv, List.getElem?_eq_getElem hiv]


/-- C2 as amended, at `u` device-fresh `[2, 5]`, `v` host-fresh `[3, 4]` and `s = 10`: afterwards `u`
reads `[32, 45]` and `v` still reads `[3, 4]`. -/
theorem C2_Add_unified_witness :
    ∃ u' v', vec_dev_2_5.Add 10 (.unified vec_host_3_4) = (u', .unified v') ∧
      u'.read = [32, 45] ∧ v'.read = [3, 4] := by
  obtain ⟨u', v', h, hr, hv, -⟩ := C2_Add_unified vec_dev_2_5 vec_host_3_4 10
    (by decide) (by decide) (by decide) (by decide) (by decide) (by decide) (by decide)
  exact ⟨u', v', h, by rw [hr]; decide, by rw [hv]; decide⟩

/-! ## DevSparseMatrix: apply -/

/-- C3 as amended: for the device matrix built from a well-formed host CSR matrix `mat` with
fewer than `2^31` stored entries, a `UnifiedVector` `x` of length `width` with a fresh copy,
whose host and device buffers are equal if both of its copies are marked fresh, and a
`UnifiedVector` `y` of length `height` in any state (any flags, any buffer contents),
`Mult (x, y)` returns normally, leaves
`y` device-fresh and host-stale, leaves the values read from `x` unchanged, and a host read of
`y[i]` gives the sum of `a * x[j]` over the stored entries `(i, j, a)` of row `i`. -/
theorem C3_DevSparseMatrix_Mult {α : Type} [Semiring α] (mat : SparseMatrix α)
    (x y : UnifiedVector α) (hA : mat.Valid) (hx : x.WF) (hy : y.WF)
    (_hxs : x.size = mat.width) (hys : y.size = mat.height)
    (hfx : x.hasFresh) (hcx : x.Coherent) :
    ∃ x' y', (DevSparseMatrix.ofSparseMatrix mat).Mult (.unified x) (.unified y)
        = .ok (x', y') ∧
      y'.deviceOwned ∧ x'.read = x.read ∧
      y'.read = (List.range mat.height).map (fun i => mat.rowSum x.read i) ∧
      ∀ i, i < mat.height → (y'.index_const i).2 = some (mat.rowSum x.read i) := by
  have hdx := UpdateDevice_dev_data_eq_read x hx hcx hfx
  have hown : ∀ x' y', (DevSparseMatrix.ofSparseMatrix mat).Mult (.unified x) (.unified y)
      = .ok (x', y') → y'.deviceOwned := by
    intro x' y' h
    simp only [DevSparseMatrix.Mult, Except.ok.injEq, Prod.mk.injEq] at h
    obtain ⟨-, rfl⟩ := h
    simp [UnifiedVector.deviceOwned]
  have hdev : ∀ x' y', (DevSparseMatrix.ofSparseMatrix mat).Mult (.unified x) (.unified y)
      = .ok (x', y') → y'.host_data.length = y'.size ∧ y'.size = mat.height ∧
        y'.dev_data = (List.range mat.height).map (fun i => mat.rowSum x.read i) := by
    intro x' y' h
    simp only [DevSparseMatrix.Mult, Except.ok.injEq, Prod.mk.injEq] at h
    obtain ⟨-, rfl⟩ := h
    refine ⟨by simpa [UnifiedVector.assign_double] using hy.1,
      by simpa [UnifiedVector.assign_double] using hys, ?_⟩
    have hlen : (cublasDscal y.size 0 y.dev_data).length = mat.height := by
      rw [cublasDscal_full _ _ _ hy.2]; simp [hy.2, hys]
    have hy2 : (y.assign_double 0).UpdateDevice = y.assign_double 0 := by
      simp [UnifiedVector.UpdateDevice, UnifiedVector.assign_double]
    simp only [hy2, hdx]
    simp only [UnifiedVector.assign_double, cusparseSpMV]
    rw [show (DevSparseMatrix.ofSparseMatrix mat).descr.rows = mat.height from rfl,
      List.drop_of_length_le (le_of_eq hlen), List.append_nil]
    apply List.map_congr_left
    intro i hi
    rw [DevSparseMatrix.rowDot_eq_rowSum mat hA x.read i (List.mem_range.mp hi)]
    simp
  refine ⟨_, _, rfl, hown _ _ rfl, UpdateDevice_read x hx hcx hfx, ?_, ?_⟩
  · obtain ⟨h1, h2, h3⟩ := hdev _ _ rfl
    rw [read_of_deviceOwned _ (hown _ _ rfl) h1 (by rw [h3, h2]; simp), h3]
  · intro i hi
    obtain ⟨h1, h2, h3⟩ := hdev _ _ rfl
    rw [index_const_eq_read, read_of_deviceOwned _ (hown _ _ rfl) h1 (by rw [h3, h2]; simp),
      h3]
    simp [hi]

/-- C3 as amended, at the literal example: the matrix with rows `[[2,0,0],[0,3,1],[1,0,4]]`, `x` reading
`[1, 1, 1]` and `y` freshly constructed (both copies stale, arbitrary contents) give `y`
reading `[2, 4, 5]`. -/
theorem C3_DevSparseMatrix_Mult_witness :
    ∃ x' y', (DevSparseMatrix.ofSparseMatrix smat_3x3).Mult (.unified vec_host_1_1_1)
        (.unified vec_undefined_3) = .ok (x', y') ∧
      y'.deviceOwned ∧ y'.read = [2, 4, 5] := by
  obtain ⟨x', y', h, ho, -, hr, -⟩ := C3_DevSparseMatrix_Mult smat_3x3 vec_host_1_1_1
    vec_undefined_3 (by decide) (by decide) (by decide) (by decide) (by decide) (by decide)
    (by decide)
  exact ⟨x', y', h, ho, by rw [hr]; decide⟩

/-! ## DevDMatrix: apply -/

/-- C4 as amended: for the device matrix built from a host row-major matrix `A`
(`height * width` entries), a `UnifiedVector` `x` of length `width` with a fresh copy, whose
host and device buffers are equal if both of its copies are marked fresh, and a
`UnifiedVector` `y` of length `height` in any state, `Mult (x, y)` (that is
`MultAdd (0, x, y)`, `cublasDgemv`
with `CUBLAS_OP_T` on the column-major `width`-by-`height` view with leading dimension
`width`) returns normally, leaves `y` device-fresh and host-stale, leaves the values read
from `x` unchanged, and a host read of `y[i]` gives `Σ_{j < width} A(i, j) * x[j]`. -/
theorem C4_DevDMatrix_Mult {α : Type} [Semiring α] (A : Matrix α) (x y : UnifiedVector α)
    (hA : A.data.length = A.height * A.width) (hx : x.WF) (hy : y.WF)
    (_hxs : x.size = A.width) (hys : y.size = A.height)
    (hfx : x.hasFresh) (hcx : x.Coherent) :
    ∃ x' y', (DevDMatrix.ofMatrix A).Mult (.unified x) (.unified y) = .ok (x', y') ∧
      y'.deviceOwned ∧ x'.read = x.read ∧
      ∀ i, i < A.height → (y'.index_const i).2
        = some (Finset.sum (Finset.range A.width) (fun j => A.entry i j * x.read.getD j 0)) := by
  have hdx := UpdateDevice_dev_data_eq_read x hx hcx hfx
  have hyl := UpdateDevice_dev_data_length y hy
  have hdata : A.data.take (A.height * A.width) = A.data :=
    List.take_of_length_le (le_of_eq hA)
  have hown : ∀ x' y', (DevDMatrix.ofMatrix A).Mult (.unified x) (.unified y)
      = .ok (x', y') → y'.deviceOwned := by
    intro x' y' h
    simp only [DevDMatrix.Mult, DevDMatrix.MultAdd, Except.ok.injEq, Prod.mk.injEq] at h
    obtain ⟨-, rfl⟩ := h
    simp [UnifiedVector.deviceOwned]
  have hdev : ∀ x' y', (DevDMatrix.ofMatrix A).Mult (.unified x) (.unified y)
      = .ok (x', y') → y'.host_data.length = y'.size ∧ y'.size = A.height ∧
        y'.dev_data = (List.range A.height).map (fun i =>
          Finset.sum (Finset.range A.width) (fun j => A.entry i j * x.read.getD j 0)) := by
    intro x' y' h
    simp only [DevDMatrix.Mult, DevDMatrix.MultAdd, Except.ok.injEq, Prod.mk.injEq] at h
    obtain ⟨-, rfl⟩ := h
    refine ⟨by simpa using hy.1, by simpa using hys, ?_⟩
    simp only [hdx, cublasDgemv, DevDMatrix.ofMatrix, Matrix.Height, Matrix.Width,
      Matrix.Data, hdata]
    rw [List.drop_of_length_le (by rw [hyl, hys]), List.append_nil]
    apply List.map_congr_left
    intro i _
    rw [sum_map_range_eq_finset_sum, one_mul, zero_mul, add_zero]
    apply Finset.sum_congr rfl
    intro j _
    rw [Matrix.entry, Nat.add_comm]
  refine ⟨_, _, rfl, hown _ _ rfl, UpdateDevice_read x hx hcx hfx, ?_⟩
  intro i hi
  obtain ⟨h1, h2, h3⟩ := hdev _ _ rfl
  rw [index_const_eq_read, read_of_deviceOwned _ (hown _ _ rfl) h1 (by rw [h3, h2]; simp), h3]
  simp [hi]

/-- C4 as amended, at the literal example: the row-major matrix `[[1,2,3],[4,5,6]]`, `x` reading
`[1, 0, 1]` and `y` of length two give `y` reading `4` and `10`. -/
theorem C4_DevDMatrix_Mult_witness :
    ∃ x' y', (DevDMatrix.ofMatrix mat_2x3).Mult (.unified vec_host_1_0_1)
        (.unified vec_undefined) = .ok (x', y') ∧
      y'.deviceOwned ∧ (y'.index_const 0).2 = some 4 ∧ (y'.index_const 1).2 = some 10 := by
  obtain ⟨x', y', h, ho, -, hr⟩ := C4_DevDMatrix_Mult mat_2x3 vec_host_1_0_1
    vec_undefined (by decide) (by decide) (by decide) (by decide) (by decide) (by decide)
    (by decide)
  exact ⟨x', y', h, ho, by rw [hr 0 (by decide)]; decide, by rw [hr 1 (by decide)]; decide⟩

/-! ## UnifiedVector: inner product -/

/-- C11: with `conjugate = true`, `InnerProduct (v, true)` throws "conjugate in innerproduct
not implemented yet." for every `UnifiedVector` `u` and every `v` (a `UnifiedVector` or a
foreign vector), and `u` and `v` are left exactly as they were (buffers and flags): the throw
precedes every `UpdateDevice` / `FVDouble` and the kernel call. -/
theorem C11_InnerProduct_conjugate {α : Type} [Mul α] [Add α] [Zero α]
    (u : UnifiedVector α) (v : BaseVector α) :
    u.InnerProduct v true = .error "conjugate in innerproduct not implemented yet." ∧
    u.InnerProduct_outcome v true
      = (.error "conjugate in innerproduct not implemented yet.", u, v) ∧
    (∀ c r u' v', u.InnerProduct v c = .ok (r, u', v') →
      u.InnerProduct_outcome v c = (.ok r, u', v')) ∧
    (∀ c e, u.InnerProduct v c = .error e → u.InnerProduct_outcome v c = (.error e, u, v)) := by
  refine ⟨rfl, rfl, ?_, ?_⟩
  · intro c r u' v' h
    cases c
    · cases v <;>
        simp only [UnifiedVector.InnerProduct, Bool.false_eq_true, if_false, Except.ok.injEq,
          Prod.mk.injEq] at h <;>
        obtain ⟨rfl, rfl, rfl⟩ := h <;> rfl
    · simp [UnifiedVector.InnerProduct] at h
  · intro c e h
    cases c
    · cases v <;> simp [UnifiedVector.InnerProduct] at h
    · simp only [UnifiedVector.InnerProduct, if_true, Except.error.injEq] at h
      subst h
      rfl

/-! ## DevDMatrix: operand types -/

/-- C18: `DevDMatrix::MultAdd (s, x, y)` (and `Mult (x, y)`) throws if and only if `x` or `y`
is not a `UnifiedVector`; when it throws, `x` and `y` are left exactly as they were; when both
are `UnifiedVector`s it returns normally. -/
theorem C18_DevDMatrix_MultAdd_fails_iff {α : Type} [Mul α] [Add α] [Zero α] [One α]
    (a : DevDMatrix α) (s : α) (x y : BaseVector α) :
    ((∃ e, a.MultAdd s x y = .error e) ↔
      ((∀ ux, x ≠ .unified ux) ∨ (∀ uy, y ≠ .unified uy))) ∧
    ((∃ e, a.Mult x y = .error e) ↔
      ((∀ ux, x ≠ .unified ux) ∨ (∀ uy, y ≠ .unified uy))) ∧
    (∀ e, a.MultAdd s x y = .error e → a.MultAdd_outcome s x y = (.error e, x, y)) ∧
    (∀ e, a.Mult x y = .error e → a.Mult_outcome x y = (.error e, x, y)) ∧
    (∀ x' y', a.MultAdd s x y = .ok (x', y') →
      a.MultAdd_outcome s x y = (.ok (), .unified x', .unified y')) := by
  cases x <;> cases y <;>
    simp [DevDMatrix.MultAdd, DevDMatrix.Mult, DevDMatrix.MultAdd_outcome,
      DevDMatrix.Mult_outcome]

/-- C11 at `u` device-fresh `[2, 5]` and `v` host-fresh `[3, 4]`: the call throws and both
vectors are as before. -/
theorem C11_InnerProduct_conjugate_witness :
    vec_dev_2_5.InnerProduct (.unified vec_host_3_4) true
      = .error "conjugate in innerproduct not implemented yet." ∧
    vec_dev_2_5.InnerProduct_outcome (.unified vec_host_3_4) true
      = (.error "conjugate in innerproduct not implemented yet.", vec_dev_2_5,
          .unified vec_host_3_4) :=
  ⟨(C11_InnerProduct_conjugate vec_dev_2_5 (.unified vec_host_3_4)).1,
    (C11_InnerProduct_conjugate vec_dev_2_5 (.unified vec_host_3_4)).2.2.2 true _
      (C11_InnerProduct_conjugate vec_dev_2_5 (.unified vec_host_3_4)).1⟩

/-- C18 at the 2 x 3 matrix with a foreign `x = [1, 0, 1]` and a `UnifiedVector` `y`: the call
throws and `x`, `y` are as before. -/
theorem C18_DevDMatrix_MultAdd_fails_iff_witness :
    (∃ e, dmat_2x3.MultAdd 2 (.foreign [1, 0, 1]) (.unified vec_host_3_4) = .error e) ∧
    dmat_2x3.MultAdd_outcome 2 (.foreign [1, 0, 1]) (.unified vec_host_3_4)
      = (.error "Inputs no UnifiedVector (will be fixed)", .foreign [1, 0, 1],
          .unified vec_host_3_4) :=
  ⟨(C18_DevDMatrix_MultAdd_fails_iff dmat_2x3 2 (.foreign [1, 0, 1])
      (.unified vec_host_3_4)).1.mpr (Or.inl (fun _ h => BaseVector.noConfusion h)),
    (C18_DevDMatrix_MultAdd_fails_iff dmat_2x3 2 (.foreign [1, 0, 1])
      (.unified vec_host_3_4)).2.2.1 _ rfl⟩

/-! ## DevDMatrix: scaled apply-accumulate -/

/-- C13 as amended: for a `DevDMatrix` `a` holding a row-major `height`-by-`width` matrix, a
scalar `s` and `UnifiedVector`s `x` (length `width`) and `y` (length `height`), each with a
fresh copy and with equal host and device buffers whenever both of its copies are marked
fresh, `MultAdd (s, x, y)` returns normally, leaves `y` device-fresh and host-stale, leaves the values
read from `x` unchanged, and a host read of `y[i]` gives `Σ_{j < width} a(i, j) * x[j] +
s * y0[i]`: the scalar multiplies the old `y`, not the product. -/
theorem C13_DevDMatrix_MultAdd {α : Type} [Semiring α] (a : DevDMatrix α) (s : α)
    (x y : UnifiedVector α) (_ha : a.dev_data.length = a.height * a.width)
    (hx : x.WF) (hy : y.WF) (_hxs : x.size = a.width) (hys : y.size = a.height)
    (hfx : x.hasFresh) (hcx : x.Coherent) (hfy : y.hasFresh) (hcy : y.Coherent) :
    ∃ x' y', a.MultAdd s (.unified x) (.unified y) = .ok (x', y') ∧
      y'.deviceOwned ∧ x'.read = x.read ∧
      ∀ i, i < a.height → ∃ y0, (y.index_const i).2 = some y0 ∧
        (y'.index_const i).2 = some
          (Finset.sum (Finset.range a.width) (fun j => a.entry i j * x.read.getD j 0)
            + s * y0) := by
  have hdx := UpdateDevice_dev_data_eq_read x hx hcx hfx
  have hdy := UpdateDevice_dev_data_eq_read y hy hcy hfy
  have hyl := read_length y hy
  have hown : ∀ x' y', a.MultAdd s (.unified x) (.unified y) = .ok (x', y') →
      y'.deviceOwned := by
    intro x' y' h
    simp only [DevDMatrix.MultAdd, Except.ok.injEq, Prod.mk.injEq] at h
    obtain ⟨-, rfl⟩ := h
    simp [UnifiedVector.deviceOwned]
  have hdev : ∀ x' y', a.MultAdd s (.unified x) (.unified y) = .ok (x', y') →
      y'.host_data.length = y'.size ∧ y'.size = a.height ∧
        y'.dev_data = (List.range a.height).map (fun i =>
          Finset.sum (Finset.range a.width) (fun j => a.entry i j * x.read.getD j 0)
            + s * y.read.getD i 0) := by
    intro x' y' h
    simp only [DevDMatrix.MultAdd, Except.ok.injEq, Prod.mk.injEq] at h
    obtain ⟨-, rfl⟩ := h
    refine ⟨by simpa using hy.1, by simpa using hys, ?_⟩
    simp only [hdx, hdy, cublasDgemv]
    rw [List.drop_of_length_le (by rw [hyl, hys]), List.append_nil]
    apply List.map_congr_left
    intro i _
    rw [sum_map_range_eq_finset_sum, one_mul]
    congr 1
    apply Finset.sum_congr rfl
    intro j _
    rw [DevDMatrix.entry, Nat.add_comm]
  refine ⟨_, _, rfl, hown _ _ rfl, UpdateDevice_read x hx hcx hfx, ?_⟩
  intro i hi
  obtain ⟨h1, h2, h3⟩ := hdev _ _ rfl
  have hiy : i < y.read.length := by rw [hyl, hys]; exact hi
  refine ⟨y.read[i], ?_, ?_⟩
  · rw [index_const_eq_read, List.getElem?_eq_getElem hiy]
  · rw [index_const_eq_read, read_of_deviceOwned _ (hown _ _ rfl) h1 (by rw [h3, h2]; simp),
      h3]
    simp [hi, hiy]

/-- C13 as amended, at the matrix `[[1,2,3],[4,5,6]]`, `x` reading `[1, 0, 1]`, `y` reading `[3, 4]` and
`s = 10`: afterwards `y` reads `4 + 30` and `10 + 40`. -/
theorem C13_DevDMatrix_MultAdd_witness :
    ∃ x' y', dmat_2x3.MultAdd 10 (.unified vec_host_1_0_1) (.unified vec_host_3_4)
        = .ok (x', y') ∧
      y'.deviceOwned ∧ (y'.index_const 0).2 = some 34 ∧ (y'.index_const 1).2 = some 50 := by
  obtain ⟨x', y', h, ho, -, hr⟩ := C13_DevDMatrix_MultAdd dmat_2x3 10 vec_host_1_0_1
    vec_host_3_4 (by decide) (by decide) (by decide) (by decide) (by decide) (by decide)
    (by decide) (by decide) (by decide)
  obtain ⟨a0, ha0, hr0⟩ := hr 0 (by decide)
  obtain ⟨a1, ha1, hr1⟩ := hr 1 (by decide)
  have e0 : a0 = 3 := by
    have : (vec_host_3_4.index_const 0).2 = some 3 := by decide
    rw [this] at ha0; exact (Option.some.inj ha0).symm
  have e1 : a1 = 4 := by
    have : (vec_host_3_4.index_const 1).2 = some 4 := by decide
    rw [this] at ha1; exact (Option.some.inj ha1).symm
  subst e0 e1
  exact ⟨x', y', h, ho, by rw [hr0]; decide, by rw [hr1]; decide⟩

/-! ## UnifiedVector: scaling -/

/-- C16 as amended: for a `UnifiedVector` `u` with a fresh copy, whose host and device buffers
are equal if both copies are marked fresh, and a scalar `f`, after `Scale (f)` the vector is
device-fresh and host-stale, a host read gives `f * u0[i]` for every index, and when
`u` was only host-fresh the device buffer is the scaled host buffer (the host values were
copied to the device first). -/
theorem C16_Scale {α : Type} [Mul α] (u : UnifiedVector α) (f : α)
    (hu : u.WF) (hfu : u.hasFresh) (hcu : u.Coherent) :
    (u.Scale f).deviceOwned ∧
    (u.Scale f).read = u.read.map (fun t => f * t) ∧
    (∀ i, i < u.size → ∃ a, (u.index_const i).2 = some a ∧
      ((u.Scale f).index_const i).2 = some (f * a)) ∧
    (u.host_uptodate = true → u.dev_uptodate = false →
      (u.Scale f).dev_data = u.host_data.map (fun t => f * t)) := by
  have hdu := UpdateDevice_dev_data_eq_read u hu hcu hfu
  have hlu := read_length u hu
  have hown : (u.Scale f).deviceOwned := by
    simp [UnifiedVector.Scale, UnifiedVector.deviceOwned]
  have hdev : (u.Scale f).dev_data = u.read.map (fun t => f * t) := by
    simp only [UnifiedVector.Scale, hdu, UpdateDevice_size]
    exact cublasDscal_full _ _ _ hlu
  have hread : (u.Scale f).read = u.read.map (fun t => f * t) := by
    rw [read_of_deviceOwned _ hown (by simpa [UnifiedVector.Scale] using hu.1)
      (by rw [hdev]; simpa [UnifiedVector.Scale] using hlu), hdev]
  refine ⟨hown, hread, ?_, ?_⟩
  · intro i hi
    have hiu : i < u.read.length := by rw [hlu]; exact hi
    refine ⟨u.read[i], ?_, ?_⟩
    · rw [index_const_eq_read, List.getElem?_eq_getElem hiu]
    · rw [index_const_eq_read, hread, List.getElem?_map, List.getElem?_eq_getElem hiu]
      rfl
  · intro hh hd
    rw [hdev]
    simp [UnifiedVector.read, UnifiedVector.UpdateHost, hh]

/-- C16 as amended, at the host-fresh vector `[3, 4]` and `f = 2`: afterwards it is device-fresh only and
reads `[6, 8]`. -/
theorem C16_Scale_witness :
    (vec_host_3_4.Scale 2).deviceOwned ∧ (vec_host_3_4.Scale 2).read = [6, 8] ∧
    (vec_host_3_4.Scale 2).dev_data = [6, 8] :=
  have h := C16_Scale vec_host_3_4 2 (by decide) (by decide) (by decide)
  ⟨h.1, h.2.1.trans (by decide), (h.2.2.2 (by decide) (by decide)).trans (by decide)⟩

/-! ## DevSparseMatrix: scaled apply-accumulate -/

/-- C12, the code at a failing input: `DevSparseMatrix::MultAdd` passes its uninitialised local
`matA` to the kernel, so the outcome is the same for any two device matrices.  For the matrix
with rows `[[2,0,0],[0,3,1],[1,0,4]]`, `s = 1`, `x` reading `[1, 1, 1]` and `y` reading
`[10, 20, 30]`, an empty value of `matA` leaves `y` reading `[10, 20, 30]`, whereas
`s * y0 + A x` is `[12, 24, 35]`, which is what the kernel gives when it is handed the
matrix's own `descr`, as `Mult` does. -/
theorem C12_MultAdd_ignores_matrix :
    (∀ (A B : DevSparseMatrix Int) (matA : cusparseSpMatDescr Int) (s : Int)
      (x y : BaseVector Int), A.MultAdd matA s x y = B.MultAdd matA s x y) ∧
    (∃ x' y', (DevSparseMatrix.ofSparseMatrix smat_3x3).MultAdd descr_empty 1
        (.unified vec_host_1_1_1) (.unified vec_dev_10_20_30) = .ok (x', y') ∧
      y'.read = [10, 20, 30]) ∧
    (∃ x' y', (DevSparseMatrix.ofSparseMatrix smat_3x3).MultAdd
        (DevSparseMatrix.ofSparseMatrix smat_3x3).descr 1
        (.unified vec_host_1_1_1) (.unified vec_dev_10_20_30) = .ok (x', y') ∧
      y'.read = [12, 24, 35]) :=
  ⟨fun _ _ _ _ _ _ => rfl, ⟨_, _, rfl, by decide⟩, ⟨_, _, rfl, by decide⟩⟩

/-! ## UnifiedVector: assignment from a vector -/

/-- C14: for `UnifiedVector`s `a`, `b` of equal length, `a = b` leaves `b` exactly as it was
(so a host read of `b` is unchanged) and: if `b` is device-fresh, `a`'s device buffer equals
`b`'s, `a` is device-fresh and host-stale and `a`'s host buffer is untouched; else if `b` is
host-fresh, `a`'s host buffer equals `b`'s, `a` is host-fresh and device-stale (its device
buffer untouched); else `a` is unchanged. -/
theorem C14_assign_unified {α : Type} (a b : UnifiedVector α)
    (ha : a.WF) (hb : b.WF) (hsz : a.size = b.size) :
    (a.assign (.unified b)).2 = .unified b ∧
    (∃ b', (a.assign (.unified b)).2 = .unified b' ∧ b'.read = b.read) ∧
    (b.dev_uptodate = true →
      (a.assign (.unified b)).1.dev_data = b.dev_data ∧
      (a.assign (.unified b)).1.deviceOwned ∧
      (a.assign (.unified b)).1.host_data = a.host_data) ∧
    (b.dev_uptodate = false → b.host_uptodate = true →
      (a.assign (.unified b)).1.host_data = b.host_data ∧
      (a.assign (.unified b)).1.hostOwned ∧
      (a.assign (.unified b)).1.dev_data = a.dev_data) ∧
    (b.dev_uptodate = false → b.host_uptodate = false → (a.assign (.unified b)).1 = a) := by
  have h2 : (a.assign (.unified b)).2 = .unified b := by
    cases b with
    | mk n h d hu du =>
      cases hu <;> cases du <;>
        simp [UnifiedVector.assign, UnifiedVector.FVDouble, UnifiedVector.UpdateHost]
  refine ⟨h2, ⟨b, h2, rfl⟩, ?_, ?_, ?_⟩
  · intro hd
    refine ⟨?_, ?_, ?_⟩
    · simp [UnifiedVector.assign, hd, cudaMemcpy_full _ _ _ ha.2 (hb.2.trans hsz.symm)]
    · simp [UnifiedVector.assign, hd, UnifiedVector.deviceOwned]
    · simp [UnifiedVector.assign, hd]
  · intro hd hh
    have hal : a.UpdateHost.host_data.length = a.size := read_length a ha
    have hbt : b.host_data.take b.size = b.host_data :=
      List.take_of_length_le (le_of_eq hb.1)
    refine ⟨?_, ?_, ?_⟩
    · simp [UnifiedVector.assign, hd, hh, UnifiedVector.FVDouble, hbt,
        UpdateHost_of_fresh b hh, FlatVector_assign_full _ _ _ hal (hb.1.trans hsz.symm)]
    · simp [UnifiedVector.assign, hd, hh, UnifiedVector.FVDouble, UnifiedVector.hostOwned]
    · simp [UnifiedVector.assign, hd, hh, UnifiedVector.FVDouble]
  · intro hd hh
    simp [UnifiedVector.assign, hd, hh]

/-- C14 at `a` host-fresh `[3, 4]` and `b` device-fresh `[2, 5]`: `a` becomes device-fresh only
with device buffer `[2, 5]` and its host buffer still `[3, 4]`; `b` is as before. -/
theorem C14_assign_unified_witness :
    (vec_host_3_4.assign (.unified vec_dev_2_5)).2 = .unified vec_dev_2_5 ∧
    (vec_host_3_4.assign (.unified vec_dev_2_5)).1.dev_data = [2, 5] ∧
    (vec_host_3_4.assign (.unified vec_dev_2_5)).1.deviceOwned ∧
    (vec_host_3_4.assign (.unified vec_dev_2_5)).1.host_data = [3, 4] :=
  have h := C14_assign_unified vec_host_3_4 vec_dev_2_5 (by decide) (by decide) (by decide)
  ⟨h.1, (h.2.2.1 (by decide)).1, (h.2.2.1 (by decide)).2.1, (h.2.2.1 (by decide)).2.2⟩

/-- C15, the code at a failing input: `a` of length 2 (host-fresh `[3, 4]`) assigned from a
device-fresh `UnifiedVector` of length 3 (`[10, 20, 30]`) or from a foreign vector of length 3
(`[1, 2, 3]`).  The operator has no size check and cannot throw: it copies the first two
elements and changes `a`'s buffer and flags. -/
theorem C15_assign_ignores_length :
    vec_host_3_4.assign (.unified vec_dev_10_20_30)
      = ({ size := 2, host_data := [3, 4], dev_data := [10, 20],
           host_uptodate := false, dev_uptodate := true }, .unified vec_dev_10_20_30) ∧
    vec_host_3_4.assign (.foreign [1, 2, 3])
      = ({ size := 2, host_data := [1, 2], dev_data := [0, 0],
           host_uptodate := true, dev_uptodate := false }, .foreign [1, 2, 3]) := by
  decide

/-! ## Device matrix factory -/

/-- C17, counterexample: for the element-by-element host matrix with a 2 x 2 block used by two
elements and no registered device creator, `CreateDevMatrix` returns no device matrix: it
throws "DevEBEMatrix not implemented yet." -/
theorem C17_CreateDevMatrix_ebe_throws :
    CreateDevMatrix (.ebe ebe_example) none = .error "DevEBEMatrix not implemented yet." ∧
    ¬ ∃ dev, CreateDevMatrix (.ebe ebe_example) none = .ok dev := by
  refine ⟨rfl, ?_⟩
  rintro ⟨dev, h⟩
  simp [CreateDevMatrix, DevEBEMatrix.ofEBE] at h

/-- C17 as amended: for every element-by-element host matrix without a registered device
creator, `CreateDevMatrix` fails with the exception "DevEBEMatrix not implemented yet." thrown
by the `DevEBEMatrix` constructor (after its member initialisers have run), and
`DevEBEMatrix::MultAdd` fails with "DevEBEMatrix::MultAdd not implemented yet." whatever its
arguments; with a registered creator the factory returns what the creator built. -/
theorem C17_CreateDevMatrix_ebe {α : Type} (ebemat : ConstantElementByElementMatrix α) :
    CreateDevMatrix (.ebe ebemat) none = .error "DevEBEMatrix not implemented yet." ∧
    DevEBEMatrix.ofEBE ebemat = .error "DevEBEMatrix not implemented yet." ∧
    (∀ (A : DevEBEMatrix α) (s : α) (x y : UnifiedVector α),
      A.MultAdd s x y = .error "DevEBEMatrix::MultAdd not implemented yet.") ∧
    (∀ res, CreateDevMatrix (.ebe ebemat) (some res) = .ok res) :=
  ⟨rfl, rfl, fun _ _ _ _ => rfl, fun _ => rfl⟩

/-! ## SymbolTable -/

/-- C19: for a table whose name list and data list have equal length, after `Set (n, e)` the
name `n` is used and `t[n]` is `e`, and the two lists still have equal length.  If `n` was
used, `Size ()` and the names are unchanged and only the element at `CheckIndex (n)` is
overridden; if `n` was unused, `Size ()` grows by one, `(n, e)` is appended last and all
previous names and elements are unchanged. -/
theorem C19_SymbolTable_Set {T : Type} (t : ngstd.SymbolTable T) (n : String) (e : T)
    (hlen : t.names.length = t.data.length) :
    (t.Set n e).Used n = true ∧ (t.Set n e).get n = some e ∧
    (t.Set n e).names.length = (t.Set n e).data.length ∧
    (t.Used n = true →
      (t.Set n e).Size = t.Size ∧ (t.Set n e).names = t.names ∧
      ∃ i : Nat, t.CheckIndex n = (i : Int) ∧ i < t.data.length ∧
        (t.Set n e).data = t.data.set i e ∧
        ∀ j, j ≠ i → (t.Set n e).data[j]? = t.data[j]?) ∧
    (t.Used n = false →
      (t.Set n e).Size = t.Size + 1 ∧ (t.Set n e).names = t.names ++ [n] ∧
      (t.Set n e).data = t.data ++ [e] ∧
      (∀ j, j < t.Size → (t.Set n e).data[j]? = t.data[j]? ∧
        (t.Set n e).names[j]? = t.names[j]?)) := by
  by_cases hmem : n ∈ t.names
  · have hi : t.names.indexOf n < t.data.length := by
      rw [← hlen]; exact List.indexOf_lt_length.mpr hmem
    have hset : t.Set n e = { t with data := t.data.set (t.names.indexOf n) e } := by
      simp [ngstd.SymbolTable.Set, ngstd.SymbolTable.CheckIndex, hmem]
    rw [hset]
    refine ⟨?_, ?_, ?_, ?_, ?_⟩
    · simp [ngstd.SymbolTable.Used, ngstd.SymbolTable.CheckIndex, hmem]
    · simp [ngstd.SymbolTable.get, ngstd.SymbolTable.Index, hmem, hi]
    · simp [hlen]
    · intro _
      refine ⟨by simp [ngstd.SymbolTable.Size], rfl, t.names.indexOf n, ?_, hi, rfl, ?_⟩
      · simp [ngstd.SymbolTable.CheckIndex, hmem]
      · intro j hj
        exact List.getElem?_set_ne (Ne.symm hj)
    · intro hu
      simp [ngstd.SymbolTable.Used, ngstd.SymbolTable.CheckIndex, hmem] at hu
  · have hset : t.Set n e = { names := t.names ++ [n], data := t.data ++ [e] } := by
      simp [ngstd.SymbolTable.Set, ngstd.SymbolTable.CheckIndex, hmem,
        ngstd.SymbolTable.AppendName]
    have hidx : (t.names ++ [n]).indexOf n = t.names.length := by
      rw [List.indexOf_append_of_not_mem hmem]; simp
    rw [hset]
    refine ⟨?_, ?_, ?_, ?_, ?_⟩
    · simp [ngstd.SymbolTable.Used, ngstd.SymbolTable.CheckIndex]
    · simp [ngstd.SymbolTable.get, ngstd.SymbolTable.Index, hidx, hlen]
    · simp [hlen]
    · intro hu
      simp [ngstd.SymbolTable.Used, ngstd.SymbolTable.CheckIndex, hmem] at hu
    · intro _
      refine ⟨by simp [ngstd.SymbolTable.Size], rfl, rfl, ?_⟩
      intro j hj
      have hj' : j < t.data.length := hj
      exact ⟨List.getElem?_append_left hj', List.getElem?_append_left (by rw [hlen]; exact hj')⟩

/-- C19 at the table `a : 1, b : 2`: setting the used name `b` to `5` keeps two entries and
overrides the second; setting the unused name `c` appends a third entry. -/
theorem C19_SymbolTable_Set_witness :
    (ngstd.table_a_b.Set "b" 5).Used "b" = true ∧
    (ngstd.table_a_b.Set "b" 5).get "b" = some 5 ∧
    (ngstd.table_a_b.Set "b" 5).Size = 2 ∧
    (ngstd.table_a_b.Set "c" 7).get "c" = some 7 ∧
    (ngstd.table_a_b.Set "c" 7).Size = 3 ∧
    (ngstd.table_a_b.Set "c" 7).data = [1, 2, 7] :=
  have hb := C19_SymbolTable_Set ngstd.table_a_b "b" 5 (by decide)
  have hc := C19_SymbolTable_Set ngstd.table_a_b "c" 7 (by decide)
  ⟨hb.1, hb.2.1, (hb.2.2.2.1 (by decide)).1, hc.2.1, (hc.2.2.2.2 (by decide)).1,
    (hc.2.2.2.2 (by decide)).2.2.1⟩

/-! ## Coherence of the two copies -/

section coherence

variable {α : Type}

theorem cudaMemcpy_length (dst src : List α) (n : Nat) (hd : dst.length = n)
    (hs : n ≤ src.length) : (cudaMemcpy dst src n).length = n := by
  simp only [cudaMemcpy, List.length_append, List.length_take, List.length_drop]; omega

theorem FlatVector_assign_length (dst src : List α) (n : Nat) (hd : dst.length = n)
    (hs : n ≤ src.length) : (FlatVector_assign n dst src).length = n :=
  cudaMemcpy_length dst src n hd hs

theorem cublasDscal_length [Mul α] (n : Nat) (a : α) (x : List α) :
    (cublasDscal n a x).length = x.length := by
  simp only [cublasDscal, List.length_append, List.length_map, List.length_take,
    List.length_drop]; omega

theorem cublasDaxpy_length [Mul α] [Add α] (n : Nat) (a : α) (x y : List α)
    (hy : y.length = n) (hx : n ≤ x.length) : (cublasDaxpy n a x y).length = n := by
  simp only [cublasDaxpy, List.length_append, List.length_zipWith, List.length_take,
    List.length_drop]; omega

theorem FlatVector_add_scaled_length [Mul α] [Add α] (n : Nat) (dst : List α) (scal : α)
    (src : List α) (hd : dst.length = n) (hs : n ≤ src.length) :
    (FlatVector_add_scaled n dst scal src).length = n := by
  simp only [FlatVector_add_scaled, List.length_append, List.length_zipWith, List.length_take,
    List.length_drop]; omega

theorem cusparseSpMV_length [Mul α] [Add α] [Zero α] (alpha beta : α)
    (matA : cusparseSpMatDescr α) (x y : List α) (h : matA.rows ≤ y.length) :
    (cusparseSpMV alpha matA x beta y).length = y.length := by
  simp only [cusparseSpMV, List.length_append, List.length_map, List.length_range,
    List.length_drop]; omega

theorem cublasDgemv_T_length [Mul α] [Add α] [Zero α] (m n : Nat) (alpha beta : α)
    (A x y : List α) (lda : Nat) (h : n ≤ y.length) :
    (cublasDgemv cublasOperation.CUBLAS_OP_T m n alpha A lda x beta y).length = y.length := by
  simp only [cublasDgemv, List.length_append, List.length_map, List.length_range,
    List.length_drop]; omega

theorem UpdateHost_host_data_length (v : UnifiedVector α) (hwf : v.WF) :
    v.UpdateHost.host_data.length = v.size :=
  read_length v hwf

theorem WF_UpdateHost (v : UnifiedVector α) (hwf : v.WF) : v.UpdateHost.WF :=
  ⟨by rw [UpdateHost_size]; exact UpdateHost_host_data_length v hwf,
    by rw [UpdateHost_size, UpdateHost_dev_data]; exact hwf.2⟩

theorem WF_UpdateDevice (v : UnifiedVector α) (hwf : v.WF) : v.UpdateDevice.WF :=
  ⟨by rw [UpdateDevice_size, UpdateDevice_host_data]; exact hwf.1,
    by rw [UpdateDevice_size]; exact UpdateDevice_dev_data_length v hwf⟩

theorem Inv_of_stale (v : UnifiedVector α) (hwf : v.WF)
    (h : v.host_uptodate = false ∨ v.dev_uptodate = false) : v.Inv := by
  refine ⟨hwf, ?_⟩
  intro hh hd
  rcases h with h | h
  · rw [h] at hh; cases hh
  · rw [h] at hd; cases hd

theorem Inv_UpdateHost (v : UnifiedVector α) (h : v.Inv) : v.UpdateHost.Inv := by
  refine ⟨WF_UpdateHost v h.1, ?_⟩
  obtain ⟨⟨h1, h2⟩, hc⟩ := h
  unfold UnifiedVector.Coherent at hc ⊢
  cases hh : v.host_uptodate <;> cases hd : v.dev_uptodate <;>
    simp_all [UnifiedVector.UpdateHost, cudaMemcpy_full _ _ _ h1 h2]

theorem Inv_UpdateDevice (v : UnifiedVector α) (h : v.Inv) : v.UpdateDevice.Inv := by
  refine ⟨WF_UpdateDevice v h.1, ?_⟩
  obtain ⟨⟨h1, h2⟩, hc⟩ := h
  unfold UnifiedVector.Coherent at hc ⊢
  cases hh : v.host_uptodate <;> cases hd : v.dev_uptodate <;>
    simp_all [UnifiedVector.UpdateDevice, cudaMemcpy_full _ _ _ h2 h1]

theorem Inv_FVDouble (v : UnifiedVector α) (h : v.Inv) : v.FVDouble.1.Inv := by
  have hw := WF_UpdateHost v h.1
  exact Inv_of_stale _ ⟨hw.1, hw.2⟩ (Or.inr rfl)

theorem Inv_assign_double [Mul α] (v : UnifiedVector α) (d : α) (h : v.Inv) :
    (v.assign_double d).Inv :=
  Inv_of_stale _ ⟨h.1.1, by
    simp only [UnifiedVector.assign_double]
    rw [cublasDscal_length]; exact h.1.2⟩ (Or.inl rfl)

theorem Inv_assign (v : UnifiedVector α) (b : BaseVector α) (h : v.Inv)
    (hb : b.Holds v.size) : (v.assign b).1.Inv := by
  have hw := WF_UpdateHost v h.1
  cases b with
  | unified u =>
    obtain ⟨hu, hsz⟩ := hb
    cases hd : u.dev_uptodate
    · cases hh : u.host_uptodate
      · simpa [UnifiedVector.assign, hd, hh] using h
      · refine Inv_of_stale _ ⟨?_, ?_⟩ (Or.inr ?_)
        · simp only [UnifiedVector.assign, hd, hh, UnifiedVector.FVDouble]
          exact FlatVector_assign_length _ _ _ hw.1
            (by simp [UpdateHost_host_data_length u hu]; exact hsz)
        · simpa [UnifiedVector.assign, hd, hh, UnifiedVector.FVDouble] using h.1.2
        · simp [UnifiedVector.assign, hd, hh]
    · refine Inv_of_stale _ ⟨?_, ?_⟩ (Or.inl ?_)
      · simpa [UnifiedVector.assign, hd] using h.1.1
      · simp only [UnifiedVector.assign, hd]
        exact cudaMemcpy_length _ _ _ h.1.2 (by rw [hu.2]; exact hsz)
      · simp [UnifiedVector.assign, hd]
  | foreign data =>
    refine Inv_of_stale _ ⟨?_, ?_⟩ (Or.inr ?_)
    · simp only [UnifiedVector.assign, UnifiedVector.FVDouble]
      exact FlatVector_assign_length _ _ _ hw.1 (by rw [UpdateHost_size]; exact hb)
    · simpa [UnifiedVector.assign, UnifiedVector.FVDouble] using h.1.2
    · simp [UnifiedVector.assign]

theorem Inv_Scale [Mul α] (v : UnifiedVector α) (d : α) (h : v.Inv) : (v.Scale d).Inv := by
  have hw := WF_UpdateDevice v h.1
  refine Inv_of_stale _ ⟨?_, ?_⟩ (Or.inl rfl)
  · exact hw.1
  · simp only [UnifiedVector.Scale]
    rw [cublasDscal_length]; exact hw.2

theorem Inv_Add [Mul α] [Add α] (v : UnifiedVector α) (d : α) (b : BaseVector α) (h : v.Inv)
    (hb : b.Holds v.size) : (v.Add d b).1.Inv := by
  cases b with
  | unified u =>
    obtain ⟨hu, hsz⟩ := hb
    have hw := WF_UpdateDevice v h.1
    refine Inv_of_stale _ ⟨hw.1, ?_⟩ (Or.inl rfl)
    simp only [UnifiedVector.Add]
    exact cublasDaxpy_length _ _ _ _ hw.2
      (by rw [UpdateDevice_size, UpdateDevice_dev_data_length u hu]; exact hsz)
  | foreign data =>
    have hw := WF_UpdateHost v h.1
    refine Inv_of_stale _ ⟨?_, ?_⟩ (Or.inr ?_)
    · simp only [UnifiedVector.Add, UnifiedVector.FVDouble]
      exact FlatVector_add_scaled_length _ _ _ _ hw.1 (by rw [UpdateHost_size]; exact hb)
    · simpa [UnifiedVector.Add, UnifiedVector.FVDouble] using h.1.2
    · simp [UnifiedVector.Add, UnifiedVector.FVDouble]

end coherence

theorem Call_Inv {α : Type} [Mul α] [Add α] [Zero α] [One α] (v v' : UnifiedVector α)
    (hs : UnifiedVector.Call v v') (h : v.Inv) : v'.Inv := by
  have hdev : ∀ (x y : UnifiedVector α) (n : Nat) (l : List α), y.Inv →
      l.length = y.UpdateDevice.dev_data.length →
      ({ ({ y.UpdateDevice with dev_data := l } : UnifiedVector α) with
          host_uptodate := false } : UnifiedVector α).Inv := by
    intro x y n l hy hl
    have hw := WF_UpdateDevice y hy.1
    exact Inv_of_stale _ ⟨hw.1, by rw [hl]; exact hw.2⟩ (Or.inl rfl)
  cases hs
  case assign_double d => exact Inv_assign_double v d h
  case assign b hb => exact Inv_assign v b h hb
  case assign_source a hsrc =>
    cases hd : v.dev_uptodate <;> cases hh : v.host_uptodate <;>
      simp only [UnifiedVector.assign, hd, hh, if_true, if_false, Bool.false_eq_true,
        BaseVector.unified.injEq] at hsrc <;> subst hsrc
    · exact h
    · exact Inv_FVDouble v h
    · exact h
    · exact h
  case index_const i => exact Inv_UpdateHost v h
  case index i => exact Inv_FVDouble v h
  case index_store i d =>
    have hw := (Inv_FVDouble v h).1
    refine Inv_of_stale _ ⟨?_, hw.2⟩ (Or.inr rfl)
    simp only [UnifiedVector.index_store, List.length_set]
    exact hw.1
  case Scale d => exact Inv_Scale v d h
  case SetScalar d => exact Inv_assign_double v d h
  case Set d b hb => exact Inv_Add _ d b (Inv_assign_double v 0 h) hb
  case Set_source a d hsrc =>
    simp only [UnifiedVector.Set, UnifiedVector.Add, BaseVector.unified.injEq] at hsrc
    subst hsrc
    exact Inv_UpdateDevice v h
  case Add d b hb => exact Inv_Add v d b h hb
  case Add_source a d hsrc =>
    simp only [UnifiedVector.Add, BaseVector.unified.injEq] at hsrc
    subst hsrc
    exact Inv_UpdateDevice v h
  case InnerProduct b c r b' hip =>
    cases c
    · cases b with
      | unified u =>
        simp only [UnifiedVector.InnerProduct, Bool.false_eq_true, if_false, Except.ok.injEq,
          Prod.mk.injEq] at hip
        obtain ⟨-, rfl, -⟩ := hip
        exact Inv_UpdateDevice v h
      | foreign data =>
        simp only [UnifiedVector.InnerProduct, Bool.false_eq_true, if_false, Except.ok.injEq,
          Prod.mk.injEq] at hip
        obtain ⟨-, rfl, -⟩ := hip
        exact Inv_FVDouble v h
    · simp [UnifiedVector.InnerProduct] at hip
  case InnerProduct_source a c r a' hip =>
    cases c
    · simp only [UnifiedVector.InnerProduct, Bool.false_eq_true, if_false, Except.ok.injEq,
        Prod.mk.injEq, BaseVector.unified.injEq] at hip
      obtain ⟨-, -, rfl⟩ := hip
      exact Inv_UpdateDevice v h
    · simp [UnifiedVector.InnerProduct] at hip
  case UpdateHost => exact Inv_UpdateHost v h
  case UpdateDevice => exact Inv_UpdateDevice v h
  case FVDouble => exact Inv_FVDouble v h
  case Memory => exact Inv_UpdateHost v h
  case DevSparseMatrix_Mult_x A y y' hm =>
    simp only [DevSparseMatrix.Mult, Except.ok.injEq, Prod.mk.injEq] at hm
    obtain ⟨rfl, -⟩ := hm
    exact Inv_UpdateDevice v h
  case DevSparseMatrix_Mult_y A x x' hy hm =>
    simp only [DevSparseMatrix.Mult, Except.ok.injEq, Prod.mk.injEq] at hm
    obtain ⟨-, rfl⟩ := hm
    have h0 := Inv_assign_double v 0 h
    refine hdev x _ 0 _ h0 (cusparseSpMV_length _ _ _ _ _ ?_)
    rw [(WF_UpdateDevice _ h0.1).2]
    exact hy
  case DevSparseMatrix_MultAdd_x A matA s y y' hm =>
    simp only [DevSparseMatrix.MultAdd, Except.ok.injEq, Prod.mk.injEq] at hm
    obtain ⟨rfl, -⟩ := hm
    exact Inv_UpdateDevice v h
  case DevSparseMatrix_MultAdd_y A matA s x x' hy hm =>
    simp only [DevSparseMatrix.MultAdd, Except.ok.injEq, Prod.mk.injEq] at hm
    obtain ⟨-, rfl⟩ := hm
    refine hdev x _ 0 _ h (cusparseSpMV_length _ _ _ _ _ ?_)
    rw [(WF_UpdateDevice _ h.1).2, UpdateDevice_size]
    exact hy
  case DevDMatrix_MultAdd_x D s y y' hm =>
    simp only [DevDMatrix.MultAdd, Except.ok.injEq, Prod.mk.injEq] at hm
    obtain ⟨rfl, -⟩ := hm
    exact Inv_UpdateDevice v h
  case DevDMatrix_MultAdd_y D s x x' hy hm =>
    simp only [DevDMatrix.MultAdd, Except.ok.injEq, Prod.mk.injEq] at hm
    obtain ⟨-, rfl⟩ := hm
    refine hdev x _ 0 _ h (cublasDgemv_T_length _ _ _ _ _ _ _ _ ?_)
    rw [(WF_UpdateDevice _ h.1).2, UpdateDevice_size]
    exact hy
  case DevDMatrix_Mult_x D y y' hm =>
    simp only [DevDMatrix.Mult, DevDMatrix.MultAdd, Except.ok.injEq, Prod.mk.injEq] at hm
    obtain ⟨rfl, -⟩ := hm
    exact Inv_UpdateDevice v h
  case DevDMatrix_Mult_y D x x' hy hm =>
    simp only [DevDMatrix.Mult, DevDMatrix.MultAdd, Except.ok.injEq, Prod.mk.injEq] at hm
    obtain ⟨-, rfl⟩ := hm
    refine hdev x _ 0 _ h (cublasDgemv_T_length _ _ _ _ _ _ _ _ ?_)
    rw [(WF_UpdateDevice _ h.1).2, UpdateDevice_size]
    exact hy

theorem Inv_host_store {α : Type} (v : UnifiedVector α) (i : Nat) (d : α) (h : v.Inv)
    (hd : v.dev_uptodate = false) : (v.host_store i d).Inv :=
  Inv_of_stale _ ⟨by simp only [UnifiedVector.host_store, List.length_set]; exact h.1.1,
    h.1.2⟩ (Or.inr hd)

theorem ReachableSync_Inv {α : Type} [Mul α] [Add α] [Zero α] [One α] (e : Bool)
    (v : UnifiedVector α) (hr : UnifiedVector.ReachableSync e v) : v.Inv := by
  induction hr with
  | new asize err host0 dev0 v hnew =>
    unfold UnifiedVector.new at hnew
    split at hnew
    · cases hnew
    · simp only [Except.ok.injEq] at hnew
      subst hnew
      exact Inv_of_stale _ ⟨host0.property, dev0.property⟩ (Or.inl rfl)
  | call e v v' _ hs ih => exact Call_Inv v v' hs ih
  | index e v i _ ih => exact Inv_FVDouble v ih
  | FVDouble e v _ ih => exact Inv_FVDouble v ih
  | Memory e v _ ih => exact Inv_UpdateHost v ih
  | host_store v i d _ hd ih => exact Inv_host_store v i d ih hd

theorem ReachableSync_Reachable {α : Type} [Mul α] [Add α] [Zero α] [One α] (e : Bool)
    (v : UnifiedVector α) (hr : UnifiedVector.ReachableSync e v) :
    UnifiedVector.Reachable e v := by
  induction hr with
  | new asize err host0 dev0 v hnew => exact .new asize err host0 dev0 v hnew
  | call e v v' _ hs ih => exact .step e e v v' ih (.call e v v' hs)
  | index e v i _ ih => exact .step e true v _ ih (.index e v i)
  | FVDouble e v _ ih => exact .step e true v _ ih (.FVDouble e v)
  | Memory e v _ ih => exact .step e true v _ ih (.Memory e v)
  | host_store v i d _ _ ih => exact .step true true v _ ih (.host_store v i d)

theorem vec_incoherent_9_5_reachable : UnifiedVector.Reachable true vec_incoherent_9_5 := by
  have h0 : UnifiedVector.Reachable (α := Int) false
      { size := 2, host_data := [2, 5], dev_data := [0, 0],
        host_uptodate := false, dev_uptodate := false } :=
    .new 2 0 ⟨[2, 5], rfl⟩ ⟨[0, 0], rfl⟩ _ rfl
  have h1 := UnifiedVector.Reachable.step _ _ _ _ h0 (.index false _ 0)
  have h2 := UnifiedVector.Reachable.step _ _ _ _ h1 (.call true _ _ (.UpdateDevice _))
  have h3 := UnifiedVector.Reachable.step _ _ _ _ h2 (.host_store _ 0 9)
  exact h3

theorem vec_incoherent_1_1_1_reachable :
    UnifiedVector.Reachable true vec_incoherent_1_1_1 := by
  have h0 : UnifiedVector.Reachable (α := Int) false
      { size := 3, host_data := [0, 0, 7], dev_data := [4, 4, 4],
        host_uptodate := false, dev_uptodate := false } :=
    .new 3 0 ⟨[0, 0, 7], rfl⟩ ⟨[4, 4, 4], rfl⟩ _ rfl
  have h1 := UnifiedVector.Reachable.step _ _ _ _ h0 (.FVDouble false _)
  have h2 := UnifiedVector.Reachable.step _ _ _ _ h1 (.call true _ _ (.UpdateDevice _))
  have h3 := UnifiedVector.Reachable.step _ _ _ _ h2 (.host_store _ 0 1)
  have h4 := UnifiedVector.Reachable.step _ _ _ _ h3 (.host_store _ 1 1)
  have h5 := UnifiedVector.Reachable.step _ _ _ _ h4 (.host_store _ 2 1)
  exact h5

theorem vec_incoherent_1_0_1_reachable :
    UnifiedVector.Reachable true vec_incoherent_1_0_1 := by
  have h0 : UnifiedVector.Reachable (α := Int) false
      { size := 3, host_data := [0, 0, 7], dev_data := [4, 4, 4],
        host_uptodate := false, dev_uptodate := false } :=
    .new 3 0 ⟨[0, 0, 7], rfl⟩ ⟨[4, 4, 4], rfl⟩ _ rfl
  have h1 := UnifiedVector.Reachable.step _ _ _ _ h0 (.FVDouble false _)
  have h2 := UnifiedVector.Reachable.step _ _ _ _ h1 (.call true _ _ (.UpdateDevice _))
  have h3 := UnifiedVector.Reachable.step _ _ _ _ h2 (.host_store _ 0 1)
  have h4 := UnifiedVector.Reachable.step _ _ _ _ h3 (.host_store _ 2 1)
  exact h4

/-- C20, counterexample: the state host `[9, 5]`, device `[2, 5]` with both copies marked
fresh is reached from the constructor by `double & r = v[0]; v.UpdateDevice (); r = 9;` (the
non-const `operator[]` on a new vector whose host allocation holds `[2, 5]`, then
`UpdateDevice ()`, then a store through the kept reference).  There the two buffers differ,
a host read of element 0 returns `9` and a device kernel works on `2`. -/
theorem C20_kept_reference_breaks_coherence :
    UnifiedVector.Reachable true vec_incoherent_9_5 ∧
    vec_incoherent_9_5.host_uptodate = true ∧ vec_incoherent_9_5.dev_uptodate = true ∧
    vec_incoherent_9_5.host_data ≠ vec_incoherent_9_5.dev_data ∧
    (vec_incoherent_9_5.index_const 0).2 = some 9 ∧
    vec_incoherent_9_5.UpdateDevice.dev_data[0]? = some 2 :=
  ⟨vec_incoherent_9_5_reachable, by decide, by decide, by decide, by decide, by decide⟩

/-- C20 as amended: in every state of a `UnifiedVector` reachable from the constructor by a
sequence of operations (`operator=`, `operator[]`, `Scale`, `SetScalar`, `Set`, `Add`,
`InnerProduct`, `UpdateHost`, `UpdateDevice`, `FVDouble`, `Memory`, use as an operand of the
device matrix `Mult` / `MultAdd`, and stores through a kept reference, view or pointer) in
which every such store is made while `dev_uptodate` is false, if `host_uptodate` and
`dev_uptodate` are both true then the host buffer and the device buffer are equal; both
buffers keep the length `size`; hence, whenever the vector has a fresh copy, the values a
device kernel works on after `UpdateDevice ()` are the values a host read returns after
`UpdateHost ()`.  Every such state is a reachable state. -/
theorem C20_synchronised_coherent {α : Type} [Mul α] [Add α] [Zero α] [One α]
    (e : Bool) (v : UnifiedVector α) (hr : UnifiedVector.ReachableSync e v) :
    (v.host_uptodate = true → v.dev_uptodate = true → v.host_data = v.dev_data) ∧
    v.WF ∧
    (v.hasFresh → v.UpdateDevice.dev_data = v.UpdateHost.host_data) ∧
    UnifiedVector.Reachable e v := by
  have hinv := ReachableSync_Inv e v hr
  exact ⟨hinv.2, hinv.1, fun hf => UpdateDevice_dev_data_eq_read v hinv.1 hinv.2 hf,
    ReachableSync_Reachable e v hr⟩

/-- C20 as amended, at the state reached by `UnifiedVector (2)`, `v[0] = 9` through the
non-const `operator[]` (store made at once, device copy stale), `UpdateDevice ()`, from
allocations holding `[7, 8]` and `[1, 2]`: both copies are marked fresh and both buffers are
`[9, 8]`. -/
theorem C20_synchronised_coherent_witness :
    (((vec_undefined.index 0).1.host_store 0 9).UpdateDevice).host_uptodate = true ∧
    (((vec_undefined.index 0).1.host_store 0 9).UpdateDevice).dev_uptodate = true ∧
    (((vec_undefined.index 0).1.host_store 0 9).UpdateDevice).host_data = [9, 8] ∧
    (((vec_undefined.index 0).1.host_store 0 9).UpdateDevice).host_data
      = (((vec_undefined.index 0).1.host_store 0 9).UpdateDevice).dev_data :=
  have hr : UnifiedVector.ReachableSync true
      (((vec_undefined.index 0).1.host_store 0 9).UpdateDevice) :=
    .call _ _ _ (.host_store _ 0 9 (.index false _ 0
      (.new 2 0 ⟨[7, 8], rfl⟩ ⟨[1, 2], rfl⟩ vec_undefined rfl)) rfl) (.UpdateDevice _)
  ⟨by decide, by decide, by decide,
    (C20_synchronised_coherent true _ hr).1 (by decide) (by decide)⟩

/-! ## DevJacobiPrecond: the arrays of the constructor -/

section jacobi

variable {α : Type} [Zero α] [One α] [Div α]

end jacobi

section doftables

theorem int32_of_range (x : Int) (hlo : -2 ^ 31 ≤ x) (hhi : x < 2 ^ 31) :
    ngcomp.int32 x = x := by
  unfold ngcomp.int32
  omega

theorem size_t64_of_range (x : Int) (hlo : 0 ≤ x) (hhi : x < 2 ^ 64) :
    ngcomp.size_t64 x = x := by
  unfold ngcomp.size_t64
  omega

theorem order_product_range (o : Int) (hlo : -46340 ≤ o) (hhi : o ≤ 46340) :
    0 ≤ o * (o - 1) ∧ o * (o - 1) ≤ 2147441940 ∧ o * o ≤ 2147395600 := by
  refine ⟨?_, ?_, ?_⟩
  · rcases le_or_lt o 0 with h | h
    · nlinarith [mul_nonneg (by linarith : (0 : Int) ≤ -o) (by linarith : (0 : Int) ≤ 1 - o)]
    · nlinarith [mul_nonneg (by linarith : (0 : Int) ≤ o) (by linarith : (0 : Int) ≤ o - 1)]
  · nlinarith [mul_nonneg (by linarith : (0 : Int) ≤ o + 46340)
      (by linarith : (0 : Int) ≤ 46341 - o)]
  · nlinarith [mul_nonneg (by linarith : (0 : Int) ≤ o + 46340)
      (by linarith : (0 : Int) ≤ 46340 - o)]

theorem inci_trig (o : Int) (hlo : -46340 ≤ o) (hhi : o ≤ 46340) :
    ngcomp.int32 (ngcomp.int32 (ngcomp.int32
      (ngcomp.HDivHighOrderSurfaceFESpace.half_product o
        + ngcomp.HDivHighOrderSurfaceFESpace.half_product o) + o) - 1) = o * o - 1 := by
  obtain ⟨h0, h1, h2⟩ := order_product_range o hlo hhi
  obtain ⟨k, hk⟩ := Int.even_mul_succ_self (o - 1)
  have hk' : o * (o - 1) = 2 * k := by
    have : (o - 1) * (o - 1 + 1) = o * (o - 1) := by ring
    rw [← this, hk]; ring
  have hoo : o * o = 2 * k + o := by linear_combination hk'
  have hhalf : ngcomp.HDivHighOrderSurfaceFESpace.half_product o = k := by
    unfold ngcomp.HDivHighOrderSurfaceFESpace.half_product
    rw [int32_of_range (o - 1) (by norm_num; omega) (by norm_num; omega),
      int32_of_range (o * (o - 1)) (by norm_num; omega) (by norm_num; omega), hk',
      Int.mul_tdiv_cancel_left k (by decide)]
  rw [hhalf, int32_of_range (k + k) (by norm_num; omega) (by norm_num; omega),
    int32_of_range (k + k + o) (by norm_num; omega) (by norm_num; omega),
    int32_of_range (k + k + o - 1) (by norm_num; omega) (by norm_num; omega)]
  omega

theorem element_body_trig (f : ngcomp.HDivHighOrderSurfaceFESpace) (i : Nat)
    (hty : f.ma.bnd_eltype i = .ET_TRIG) (hdf : f.ho_div_free = false)
    (hdc : f.highest_order_dc = false) (hlo : -46340 ≤ f.order) (hhi : f.order ≤ 46340)
    (hnd : 0 ≤ f.ndof) (hfit : f.ndof + max (f.order * f.order - 1) 0 < 2 ^ 31) :
    f.element_body i = .ok { f with
      first_inner_dof := f.first_inner_dof.set i f.ndof,
      ndof := f.ndof + max (f.order * f.order - 1) 0 } := by
  have hty' : f.ma.GetElType i = .ET_TRIG := hty
  have hm : (0 : Int) ≤ max (f.order * f.order - 1) 0 := le_max_right _ _
  have hn32 : ngcomp.int32 f.ndof = f.ndof :=
    int32_of_range _ (by norm_num; omega) (by norm_num at hfit ⊢; omega)
  simp only [ngcomp.HDivHighOrderSurfaceFESpace.element_body,
    ngcomp.HDivHighOrderSurfaceFESpace.inci_of_type, hty', hdf, hdc,
    inci_trig f.order hlo hhi, hn32]
  by_cases hpos : f.order * f.order - 1 > 0
  · have hmax : max (f.order * f.order - 1) 0 = f.order * f.order - 1 :=
      max_eq_left (le_of_lt hpos)
    have hs : ngcomp.size_t64 (f.ndof + (f.order * f.order - 1))
        = f.ndof + (f.order * f.order - 1) := by
      rw [hmax] at hfit
      exact size_t64_of_range _ (by omega) (by norm_num at hfit ⊢; omega)
    simp [hpos, hmax, hs]
  · simp [hpos, max_eq_right (not_lt.mp hpos)]

theorem element_loop (f : ngcomp.HDivHighOrderSurfaceFESpace) (n : Nat)
    (hlen : f.first_inner_dof.length = n + 1)
    (htrig : ∀ i, i < n → f.ma.bnd_eltype i = .ET_TRIG) (hdf : f.ho_div_free = false)
    (hdc : f.highest_order_dc = false) (hlo : -46340 ≤ f.order) (hhi : f.order ≤ 46340)
    (hnd : 0 ≤ f.ndof) (hfit : f.ndof + n * max (f.order * f.order - 1) 0 < 2 ^ 31) :
    ∀ k, k ≤ n → ∃ tab : List Int,
      (List.range k).foldlM ngcomp.HDivHighOrderSurfaceFESpace.element_body f
        = .ok { f with first_inner_dof := tab,
                       ndof := f.ndof + k * max (f.order * f.order - 1) 0 } ∧
      tab.length = n + 1 ∧
      ∀ j, j < k → tab[j]? = some (f.ndof + j * max (f.order * f.order - 1) 0) := by
  have hm : (0 : Int) ≤ max (f.order * f.order - 1) 0 := le_max_right _ _
  intro k
  induction k with
  | zero =>
    intro _
    refine ⟨f.first_inner_dof, ?_, hlen, ?_⟩
    · simp [pure, Except.pure]
    · intro j hj; omega
  | succ k ih =>
    intro hk
    obtain ⟨tab, hfold, htl, htab⟩ := ih (by omega)
    have hkm : (0 : Int) ≤ k * max (f.order * f.order - 1) 0 :=
      mul_nonneg (Int.ofNat_nonneg k) hm
    have hstep : ((k : Int) + 1) * max (f.order * f.order - 1) 0
        ≤ n * max (f.order * f.order - 1) 0 :=
      mul_le_mul_of_nonneg_right (by exact_mod_cast hk) hm
    refine ⟨tab.set k (f.ndof + k * max (f.order * f.order - 1) 0), ?_, ?_, ?_⟩
    · rw [List.range_succ, List.foldlM_append, hfold]
      simp only [bind, Except.bind, List.foldlM_cons, List.foldlM_nil]
      have hb := element_body_trig
        { f with first_inner_dof := tab,
                 ndof := f.ndof + k * max (f.order * f.order - 1) 0 } k
        (htrig k (by omega)) hdf hdc hlo hhi (by simp only []; linarith)
        (by simp only []; linarith)
      rw [hb]
      simp only [pure, Except.pure, Except.ok.injEq]
      congr 1
      push_cast
      ring
    · rw [List.length_set]; exact htl
    · intro j hj
      rcases Nat.lt_or_ge j k with hlt | hge
      · rw [List.getElem?_set_ne (by omega)]; exact htab j hlt
      · have : j = k := by omega
        subst this
        rw [List.getElem?_set_self (by omega)]

theorem facet_loop (l : List Nat) (f : ngcomp.HDivHighOrderSurfaceFESpace) (m : Nat)
    (h : f.first_facet_dof = List.replicate m (ngcomp.int32 f.ndof)) :
    l.foldl (fun (f : ngcomp.HDivHighOrderSurfaceFESpace) i =>
      { f with first_facet_dof := f.first_facet_dof.set i (ngcomp.int32 f.ndof) }) f = f := by
  induction l with
  | nil => rfl
  | cons i l ih =>
    rw [List.foldl_cons]
    have : ({ f with first_facet_dof := f.first_facet_dof.set i (ngcomp.int32 f.ndof) } :
        ngcomp.HDivHighOrderSurfaceFESpace) = f := by
      rw [h, List.set_replicate_self, ← h]
    rw [this]
    exact ih

end doftables

/-- C22 at order 46341, where the claim does not hold: on the mesh with 5 edges and 2
triangles, `ho_div_free` and `highest_order_dc` off, the `int` sum
`order*(order-1)/2 + order*(order-1)/2 + order` exceeds `2^31 - 1` and wraps, `inci` is
negative, no inner dof is added, and `Update` returns with `ndof = 5` and `first_inner_dof`
equal to `5, 5, 5`, while `nfa + nel * max (order * order - 1, 0)` is `4294976565`. -/
theorem C22_order_46341_wraps :
    (∃ fes', ngcomp.fes_order46341.Update ⟨[0, 0, 0, 0, 0, 0], rfl⟩ ⟨[9, 9, 9], rfl⟩
        = .ok fes' ∧
      fes'.ndof = 5 ∧ fes'.first_facet_dof = [5, 5, 5, 5, 5, 5] ∧
      fes'.first_inner_dof = [5, 5, 5]) ∧
    ngcomp.fes_order46341.inci_of_type 0 = .ok (-2147479016) ∧
    ngcomp.fes_order46341.ma.dimension = 3 ∧
    ngcomp.fes_order46341.ma.nedges = 5 ∧ ngcomp.fes_order46341.ma.nse = 2 ∧
    (∀ i, i < 2 → ngcomp.fes_order46341.ma.bnd_eltype i = .ET_TRIG) ∧
    ngcomp.fes_order46341.ho_div_free = false ∧
    ngcomp.fes_order46341.highest_order_dc = false ∧
    (ngcomp.fes_order46341.ma.nedges : Int) + ngcomp.fes_order46341.ma.nse
      * max (ngcomp.fes_order46341.order * ngcomp.fes_order46341.order - 1) 0
      = 4294976565 := by
  refine ⟨⟨_, rfl, by decide, by decide, by decide⟩, rfl, rfl, rfl, rfl, ?_, rfl, rfl,
    by decide⟩
  intro i hi
  interval_cases i <;> rfl

/-- C22 as amended: on a mesh of dimension 3 with `nfa` edges and `nel` surface elements
that are all triangles, with `ho_div_free = false` and `highest_order_dc = false`, for every
`order` with `-46340 ≤ order ≤ 46340` and `nfa + nel * max (order * order - 1, 0) < 2^31`,
and whatever the resized tables hold, `Update` (which runs `UpdateDofTables`) returns
normally with `first_facet_dof[i] = nfa` for every `i` in `0 .. nfa`,
`first_inner_dof[i] = nfa + i * max (order * order - 1, 0)` for every `i` in `0 .. nel`, and
`ndof = nfa + nel * max (order * order - 1, 0)`; so `first_inner_dof` is non-decreasing, its
last entry is `ndof`, and for `order` 0 or 1 `ndof = nfa`. -/
theorem C22_UpdateDofTables (fes : ngcomp.HDivHighOrderSurfaceFESpace)
    (facet0 : Buffer Int (fes.ma.GetNEdges + 1)) (inner0 : Buffer Int (fes.ma.GetNSE + 1))
    (hdim : fes.ma.dimension = 3)
    (htrig : ∀ i, i < fes.ma.nse → fes.ma.bnd_eltype i = .ET_TRIG)
    (hdf : fes.ho_div_free = false) (hdc : fes.highest_order_dc = false)
    (hlo : -46340 ≤ fes.order) (hhi : fes.order ≤ 46340)
    (hfit : (fes.ma.nedges : Int) + fes.ma.nse * max (fes.order * fes.order - 1) 0
      < 2 ^ 31) :
    ∃ fes', fes.Update facet0 inner0 = .ok fes' ∧
      fes'.first_facet_dof = List.replicate (fes.ma.nedges + 1) (fes.ma.nedges : Int) ∧
      (∀ i, i ≤ fes.ma.nedges → fes'.first_facet_dof[i]? = some (fes.ma.nedges : Int)) ∧
      fes'.first_inner_dof.length = fes.ma.nse + 1 ∧
      (∀ i, i ≤ fes.ma.nse → fes'.first_inner_dof[i]?
        = some ((fes.ma.nedges : Int) + i * max (fes.order * fes.order - 1) 0)) ∧
      fes'.ndof = (fes.ma.nedges : Int) + fes.ma.nse * max (fes.order * fes.order - 1) 0 ∧
      (∀ i, i < fes.ma.nse → ∃ a b, fes'.first_inner_dof[i]? = some a ∧
        fes'.first_inner_dof[i + 1]? = some b ∧ a ≤ b) ∧
      fes'.first_inner_dof[fes.ma.nse]? = some fes'.ndof ∧
      ((fes.order = 0 ∨ fes.order = 1) → fes'.ndof = (fes.ma.nedges : Int)) := by
  obtain ⟨fac, hfac⟩ := facet0
  obtain ⟨inn, hinn⟩ := inner0
  have hm : (0 : Int) ≤ max (fes.order * fes.order - 1) 0 := le_max_right _ _
  have hnm : (0 : Int) ≤ fes.ma.nse * max (fes.order * fes.order - 1) 0 :=
    mul_nonneg (Int.ofNat_nonneg _) hm
  have hnfa : (fes.ma.nedges : Int) < 2 ^ 31 := by linarith
  have hfl : (fac.map (fun _ => (fes.ma.nedges : Int)))
      = List.replicate (fes.ma.nedges + 1) (fes.ma.nedges : Int) := by
    rw [List.map_const', hfac]; rfl
  have hloop := element_loop
    { fes with ndof := (fes.ma.nedges : Int),
               first_facet_dof := List.replicate (fes.ma.nedges + 1) (fes.ma.nedges : Int),
               first_inner_dof := inn }
    fes.ma.nse hinn htrig hdf hdc hlo hhi (Int.ofNat_nonneg _) hfit fes.ma.nse (le_refl _)
  obtain ⟨tab, hfold, htl, htab⟩ := hloop
  have hupd : ngcomp.HDivHighOrderSurfaceFESpace.Update fes ⟨fac, hfac⟩ ⟨inn, hinn⟩
      = .ok { fes with
          ndof := (fes.ma.nedges : Int) + fes.ma.nse * max (fes.order * fes.order - 1) 0,
          first_facet_dof := List.replicate (fes.ma.nedges + 1) (fes.ma.nedges : Int),
          first_inner_dof := tab.set fes.ma.nse
            ((fes.ma.nedges : Int) + fes.ma.nse * max (fes.order * fes.order - 1) 0),
          dc_pairs := [] } := by
    have hdim' : fes.ma.GetDimension = 3 := hdim
    have hs64 : ngcomp.size_t64 (fes.ma.nedges : Int) = (fes.ma.nedges : Int) :=
      size_t64_of_range _ (Int.ofNat_nonneg _) (lt_trans hnfa (by norm_num))
    have hi32 : ngcomp.int32 (fes.ma.nedges : Int) = (fes.ma.nedges : Int) :=
      int32_of_range _ (le_trans (by norm_num) (Int.ofNat_nonneg _)) hnfa
    have hn32 : ngcomp.int32
        ((fes.ma.nedges : Int) + fes.ma.nse * max (fes.order * fes.order - 1) 0)
        = (fes.ma.nedges : Int) + fes.ma.nse * max (fes.order * fes.order - 1) 0 :=
      int32_of_range _ (le_trans (by norm_num) (add_nonneg (Int.ofNat_nonneg _) hnm)) hfit
    simp only [ngcomp.HDivHighOrderSurfaceFESpace.Update,
      ngcomp.HDivHighOrderSurfaceFESpace.UpdateDofTables, hdim', if_true,
      ngcomp.MeshAccess.GetNEdges, ngcomp.MeshAccess.GetNSE, hs64, hi32, hfl]
    rw [facet_loop _ _ (fes.ma.nedges + 1) (by simp only [hi32])]
    simp only [hi32, List.set_replicate_self]
    rw [hfold]
    simp [hdc, hn32]
  refine ⟨_, hupd, rfl, ?_, ?_, ?_, rfl, ?_, ?_, ?_⟩
  · intro i hi
    simp only [List.getElem?_replicate]
    rw [if_pos (by omega)]
  · simp only [List.length_set]; exact htl
  · intro i hi
    rcases Nat.lt_or_ge i fes.ma.nse with hlt | hge
    · simp only []
      rw [List.getElem?_set_ne (by omega)]
      exact htab i hlt
    · have : i = fes.ma.nse := by omega
      subst this
      simp only []
      rw [List.getElem?_set_self (by omega)]
  · intro i hi
    refine ⟨(fes.ma.nedges : Int) + i * max (fes.order * fes.order - 1) 0,
      (fes.ma.nedges : Int) + (i + 1 : Nat) * max (fes.order * fes.order - 1) 0, ?_, ?_, ?_⟩
    · simp only []
      rw [List.getElem?_set_ne (by omega)]
      exact htab i hi
    · rcases Nat.lt_or_ge (i + 1) fes.ma.nse with hlt | hge
      · simp only []
        rw [List.getElem?_set_ne (by omega)]
        exact htab (i + 1) hlt
      · have : i + 1 = fes.ma.nse := by omega
        simp only []
        rw [← this, List.getElem?_set_self (by omega)]
    · push_cast
      nlinarith [hm]
  · simp only []
    rw [List.getElem?_set_self (by omega)]
  · intro ho
    simp only []
    rcases ho with h0 | h1
    · rw [h0]; simp
    · rw [h1]; simp

/-- C22 as amended, at order 2 on the mesh with 5 edges and 2 triangles:
`ndof = 5 + 2 * 3 = 11`, `first_facet_dof` is six times `5`, and `first_inner_dof` is
`5, 8, 11`. -/
theorem C22_UpdateDofTables_witness :
    ∃ fes', ngcomp.fes_order2.Update ⟨[0, 0, 0, 0, 0, 0], rfl⟩ ⟨[9, 9, 9], rfl⟩ = .ok fes' ∧
      fes'.ndof = 11 ∧ fes'.first_facet_dof = [5, 5, 5, 5, 5, 5] ∧
      fes'.first_inner_dof[0]? = some 5 ∧ fes'.first_inner_dof[1]? = some 8 ∧
      fes'.first_inner_dof[2]? = some 11 := by
  obtain ⟨fes', h, hf, -, -, hi, hn, -, -, -⟩ := C22_UpdateDofTables ngcomp.fes_order2
    ⟨[0, 0, 0, 0, 0, 0], rfl⟩ ⟨[9, 9, 9], rfl⟩ rfl (fun _ _ => rfl) rfl rfl
    (by decide) (by decide) (by decide)
  exact ⟨fes', h, by rw [hn]; decide, by rw [hf]; decide,
    by rw [hi 0 (by decide)]; decide, by rw [hi 1 (by decide)]; decide,
    by rw [hi 2 (by decide)]; decide⟩

/-! ## Operations on a vector whose two fresh copies differ -/

/-- C2, counterexample: `u` with both copies marked fresh, host `[9, 5]` and device `[2, 5]`
(a reachable state), `v` host-fresh `[3, 4]`, `s = 10`.  Both vectors are well-formed, of
equal length and have a fresh copy; a host read of `u[0]` returns `9` before the call, and
after `u.Add (10, v)` it returns `32 = 2 + 10 * 3`, not `9 + 10 * 3`: the kernel works on the
device copy. -/
theorem C2_Add_uses_device_copy :
    UnifiedVector.Reachable true vec_incoherent_9_5 ∧
    vec_incoherent_9_5.WF ∧ vec_incoherent_9_5.hasFresh ∧
    vec_host_3_4.WF ∧ vec_host_3_4.hasFresh ∧ vec_incoherent_9_5.size = vec_host_3_4.size ∧
    (vec_incoherent_9_5.index_const 0).2 = some 9 ∧
    (vec_host_3_4.index_const 0).2 = some 3 ∧
    ((vec_incoherent_9_5.Add 10 (.unified vec_host_3_4)).1.index_const 0).2 = some 32 ∧
    (32 : Int) ≠ 9 + 10 * 3 :=
  ⟨vec_incoherent_9_5_reachable, by decide, by decide, by decide, by decide, by decide,
    by decide, by decide, by decide, by decide⟩

/-- C3, counterexample: the matrix with rows `[[2,0,0],[0,3,1],[1,0,4]]` and `x` with both
copies marked fresh, host `[1, 1, 1]` and device `[0, 0, 7]` (a reachable state).  A host
read of `x` returns `[1, 1, 1]`, for which the row sums are `[2, 4, 5]`, but `Mult (x, y)`
leaves `y` reading `[0, 7, 28]`.  Moreover a row offset of `2^31` does not survive the
conversion to the 32-bit index type of the device copy. -/
theorem C3_Mult_uses_device_copy :
    UnifiedVector.Reachable true vec_incoherent_1_1_1 ∧
    vec_incoherent_1_1_1.WF ∧ vec_incoherent_1_1_1.hasFresh ∧
    vec_incoherent_1_1_1.read = [1, 1, 1] ∧
    (List.range 3).map (fun i => smat_3x3.rowSum vec_incoherent_1_1_1.read i) = [2, 4, 5] ∧
    (∃ x' y', (DevSparseMatrix.ofSparseMatrix smat_3x3).Mult (.unified vec_incoherent_1_1_1)
        (.unified vec_undefined_3) = .ok (x', y') ∧ y'.read = [0, 7, 28]) ∧
    toInt32 (2 ^ 31) = -(2 ^ 31) :=
  ⟨vec_incoherent_1_1_1_reachable, by decide, by decide, by decide, by decide,
    ⟨_, _, rfl, by decide⟩, by decide⟩

/-- C4, counterexample: the row-major matrix `[[1,2,3],[4,5,6]]` and `x` with both copies
marked fresh, host `[1, 0, 1]` and device `[0, 0, 7]` (a reachable state).  A host read of
`x` returns `[1, 0, 1]`, for which `A x = [4, 10]`, but `Mult (x, y)` leaves `y` reading
`21` and `42`. -/
theorem C4_Mult_uses_device_copy :
    UnifiedVector.Reachable true vec_incoherent_1_0_1 ∧
    vec_incoherent_1_0_1.WF ∧ vec_incoherent_1_0_1.hasFresh ∧
    vec_incoherent_1_0_1.read = [1, 0, 1] ∧
    (∃ x' y', (DevDMatrix.ofMatrix mat_2x3).Mult (.unified vec_incoherent_1_0_1)
        (.unified vec_undefined) = .ok (x', y') ∧
      (y'.index_const 0).2 = some 21 ∧ (y'.index_const 1).2 = some 42) ∧
    Finset.sum (Finset.range 3) (fun j => mat_2x3.entry 0 j * [(1 : Int), 0, 1].getD j 0) = 4 :=
  ⟨vec_incoherent_1_0_1_reachable, by decide, by decide, by decide,
    ⟨_, _, rfl, by decide, by decide⟩, by decide⟩

/-- C13, counterexample: the matrix `[[1,2,3],[4,5,6]]`, `x` host-fresh `[1, 0, 1]`, `s = 10`
and `y` with both copies marked fresh, host `[9, 5]` and device `[2, 5]` (a reachable state).
A host read of `y[0]` returns `9` before the call; afterwards it returns
`24 = 4 + 10 * 2`, not `4 + 10 * 9`. -/
theorem C13_MultAdd_uses_device_copy :
    UnifiedVector.Reachable true vec_incoherent_9_5 ∧
    vec_incoherent_9_5.WF ∧ vec_incoherent_9_5.hasFresh ∧
    (vec_incoherent_9_5.index_const 0).2 = some 9 ∧
    (∃ x' y', dmat_2x3.MultAdd 10 (.unified vec_host_1_0_1) (.unified vec_incoherent_9_5)
        = .ok (x', y') ∧ (y'.index_const 0).2 = some 24) ∧
    Finset.sum (Finset.range 3) (fun j => dmat_2x3.entry 0 j * [(1 : Int), 0, 1].getD j 0) = 4 ∧
    (24 : Int) ≠ 4 + 10 * 9 :=
  ⟨vec_incoherent_9_5_reachable, by decide, by decide, by decide,
    ⟨_, _, rfl, by decide⟩, by decide, by decide⟩

/-- C16, counterexample: `u` with both copies marked fresh, host `[9, 5]` and device `[2, 5]`
(a reachable state).  A host read of `u[0]` returns `9` before the call; after `Scale (2)` it
returns `4 = 2 * 2`, not `2 * 9`. -/
theorem C16_Scale_uses_device_copy :
    UnifiedVector.Reachable true vec_incoherent_9_5 ∧
    vec_incoherent_9_5.WF ∧ vec_incoherent_9_5.hasFresh ∧
    (vec_incoherent_9_5.index_const 0).2 = some 9 ∧
    ((vec_incoherent_9_5.Scale 2).index_const 0).2 = some 4 ∧
    (4 : Int) ≠ 2 * 9 :=
  ⟨vec_incoherent_9_5_reachable, by decide, by decide, by decide, by decide, by decide⟩

end ngla
